import Mathlib

/-!
Verification development for the contract-generator desktop application.

The repository's core pipeline is embedded shallowly: pure TypeScript
functions become Lean functions over `String` / `List Char` / `ℚ`, the
renderer's operation sequencer becomes an explicit state machine, and the
effectful compile orchestrator becomes a pure function over an abstract
environment describing the outcomes of its external calls.

JavaScript numbers are modelled as exact rationals plus an explicit `nan`
constructor (`JsNum`); JSON-persisted data cannot contain `NaN` or
infinities, so `nan` stands for any value whose `Number(...)` coercion is
not finite.  Character-class operations (`\p{L}`, `\p{N}`, `\s`,
`toLowerCase`, `toUpperCase`, NFKC/NFKD normalization) are modelled on the
ASCII fragment, where the JavaScript operations agree with the definitions
given here; theorems that depend on these operations quantify over inputs
on which the model is exact.
-/

namespace ContractApp

/-! ## Generic string helpers (JS semantics on the ASCII fragment) -/

/-- `startsWithList needle hay` is true when `needle` is an initial
segment of `hay` (used to model `String.prototype.startsWith` and path
ancestry checks). -/
def startsWithList {α : Type} [DecidableEq α] : List α → List α → Bool
  | [], _ => true
  | _ :: _, [] => false
  | a :: as, b :: bs => a = b && startsWithList as bs

/-- `containsList hay needle` models `hay.includes(needle)`: some
contiguous segment of `hay` equals `needle`. -/
def containsList {α : Type} [DecidableEq α] : List α → List α → Bool
  | [], needle => needle.isEmpty
  | a :: rest, needle => startsWithList needle (a :: rest) || containsList rest needle

/-- ASCII whitespace recognised by the JavaScript `\s` class and
`String.prototype.trim` (the model's scope is ASCII input). -/
def isJsSpace (c : Char) : Bool :=
  c = ' ' || c = '\t' || c = '\n' || c = '\r' || c = '\x0b' || c = '\x0c'

/-- `trimChars` models `String.prototype.trim` on ASCII input. -/
def trimChars (l : List Char) : List Char :=
  ((l.dropWhile isJsSpace).reverse.dropWhile isJsSpace).reverse

/-- `jsTrim` models `s.trim()` on ASCII strings. -/
def jsTrim (s : String) : String := String.mk (trimChars s.data)

/-- `jsToLower` models `String.prototype.toLowerCase` character by
character; it agrees with JavaScript on ASCII. -/
def jsToLower (s : String) : String := String.mk (s.data.map Char.toLower)

/-! ## Sanitizer (src generator.ts, `sanitize`)

`sanitize` escapes the ten LaTeX-special characters
`& % $ # _ { } ~ ^ \` exactly as the source's character-class regex
replacement does; `null`/`undefined` input yields the empty string.  The
regex `/[&%$#_{}~^\\]/g` with a per-match replacement table is a
character-by-character rewrite, embedded as `List.flatMap` of a
per-character escape. -/

/-- The ten characters matched by the sanitizer's regex. -/
def latexSpecials : List Char :=
  ['&', '%', '$', '#', '_', '{', '}', '~', '^', '\\']

/-- The replacement table of `sanitize`, as a per-character rewrite. -/
def escapeChar (c : Char) : List Char :=
  if c = '&' then ['\\', '&']
  else if c = '%' then ['\\', '%']
  else if c = '$' then ['\\', '$']
  else if c = '#' then ['\\', '#']
  else if c = '_' then ['\\', '_']
  else if c = '{' then ['\\', '{']
  else if c = '}' then ['\\', '}']
  else if c = '~' then "\\textasciitilde\x7b\x7d".data
  else if c = '^' then "\\textasciicircum\x7b\x7d".data
  else if c = '\\' then "\\textbackslash\x7b\x7d".data
  else [c]

/-- The sanitizer on character lists. -/
def sanitizeList (l : List Char) : List Char := l.flatMap escapeChar

/-- The sanitizer on strings (the `String(value)` coercion applied to an
actual string is the identity). -/
def sanitizeStr (s : String) : String := String.mk (sanitizeList s.data)

/-- `sanitize` as in the source: `null`/`undefined` (modelled as `none`)
returns the empty string, otherwise the escaped string form. -/
def sanitize (v : Option String) : String :=
  match v with
  | none => ""
  | some s => sanitizeStr s

/-- The ten escape tokens that may appear in sanitizer output in place of
a special character. -/
def escapeTokens : List (List Char) :=
  [['\\', '&'], ['\\', '%'], ['\\', '$'], ['\\', '#'], ['\\', '_'],
   ['\\', '{'], ['\\', '}'],
   "\\textasciitilde\x7b\x7d".data,
   "\\textasciicircum\x7b\x7d".data,
   "\\textbackslash\x7b\x7d".data]

/-- A character list is `LatexSafe` when it is a concatenation of
ordinary characters (outside the ten special ones) and whole escape
tokens: every occurrence of a special character in it lies inside one of
the sanctioned escape sequences, i.e. nothing is left unescaped. -/
inductive LatexSafe : List Char → Prop
  | nil : LatexSafe []
  | plain (c : Char) (rest : List Char) :
      c ∉ latexSpecials → LatexSafe rest → LatexSafe (c :: rest)
  | tok (t : List Char) (rest : List Char) :
      t ∈ escapeTokens → LatexSafe rest → LatexSafe (t ++ rest)

/-! ## JavaScript numbers and their string form -/

/-- A JavaScript number: an exact rational, or `nan` for any value whose
`Number(...)` coercion is not finite (JSON-persisted data cannot carry
`NaN`/infinities, so `nan` covers coerced non-numeric strings). -/
inductive JsNum where
  | num (q : ℚ)
  | nan
deriving DecidableEq, Repr

/-- Addition of JavaScript numbers; `nan` is absorbing. -/
def jsAdd : JsNum → JsNum → JsNum
  | .num a, .num b => .num (a + b)
  | _, _ => .nan

/-- The fractional digits of `r ∈ [0, 1)`, most significant first, with a
fuel bound (all numbers arising here have short terminating decimal
expansions, where this agrees with JavaScript's number-to-string). -/
def fracDigitsAux : Nat → ℚ → String
  | 0, _ => ""
  | Nat.succ fuel, r =>
    if r = 0 then ""
    else
      let r10 := r * 10
      let d := ⌊r10⌋
      toString d.toNat ++ fracDigitsAux fuel (r10 - (d : ℚ))

/-- Decimal rendering of a rational, modelling JavaScript's
number-to-string conversion on numbers with short terminating decimal
expansions (integers print with no decimal point, trailing zeros are not
printed). -/
def ratToString (q : ℚ) : String :=
  let sign := if q < 0 then "-" else ""
  let a := |q|
  let ip := (⌊a⌋).toNat
  let f := fracDigitsAux 20 (a - (ip : ℚ))
  sign ++ toString ip ++ (if f = "" then "" else "." ++ f)

/-- String form of a JavaScript number (`String(value)` / template
literal interpolation). -/
def jsNumToString : JsNum → String
  | .num q => ratToString q
  | .nan => "NaN"

/-- `value.toFixed(2)` followed by `Number.parseFloat`: round to the
nearest multiple of 1/100, ties toward the larger candidate, `NaN`
passing through. -/
def jsToFixed2 : JsNum → JsNum
  | .num q => .num ((⌊q * 100 + 1 / 2⌋ : ℤ) / 100)
  | .nan => .nan

/-- `Math.abs(t - c) > tol` under JavaScript comparison semantics: any
comparison with `NaN` is false. -/
def jsGtAbsDiff (t : JsNum) (c tol : ℚ) : Bool :=
  match t with
  | .num q => decide (|q - c| > tol)
  | .nan => false

/-! ## Data model (src common/types.ts) -/

/-- `LicensorEntry`; fields are optional exactly as in the source. -/
structure LicensorEntry where
  stageName : Option String := none
  legalName : Option String := none
  address : Option String := none
  email : Option String := none
deriving DecidableEq, Repr

/-- `RoyaltyPartyEntry`; `royaltyShare` is a JavaScript number (or
absent/null, conflated as `none`). -/
structure RoyaltyPartyEntry where
  displayName : Option String := none
  legalName : Option String := none
  role : Option String := none
  royaltyShare : Option JsNum := none
  email : Option String := none
deriving DecidableEq, Repr

/-- `LegacyArtistEntry`, the deprecated single-list artist shape. -/
structure LegacyArtistEntry where
  stageName : Option String := none
  legalName : Option String := none
  address : Option String := none
  email : Option String := none
  royaltyShare : Option JsNum := none
  role : Option String := none
deriving DecidableEq, Repr

/-- A `dayjs` date value: dayjs objects are normalized timestamps, so a
valid one is represented by its calendar components.  The model covers
years up to 9999 (where the `YYYY` format token prints exactly four
digits). -/
structure DayjsDate where
  y : Nat
  m : Nat
  d : Nat
deriving DecidableEq, Repr

/-- `AgreementDefaults` / `PersistedAgreement`: the persisted shape, with
dates as ISO strings.  Absent, `undefined` and `null` field values are
conflated as `none`. -/
structure AgreementDefaults where
  labelName : Option String := none
  labelLegalName : Option String := none
  labelAddress : Option String := none
  labelEmail : Option String := none
  labelSignatory : Option String := none
  distroPartner : Option String := none
  distroFee : Option JsNum := none
  adaFee : Option JsNum := none
  labelShare : Option JsNum := none
  releaseTitle : Option String := none
  releaseDate : Option String := none
  releaseDateISO : Option String := none
  releaseUPC : Option String := none
  releaseISRC : Option String := none
  mainArtists : Option (List String) := none
  featuredArtists : Option (List String) := none
  licensors : Option (List LicensorEntry) := none
  royaltyParties : Option (List RoyaltyPartyEntry) := none
  artists : Option (List LegacyArtistEntry) := none
deriving DecidableEq, Repr

/-- `FormAgreementValues`: the form shape, identical to the persisted
shape except that `releaseDate` is a dayjs object or null. -/
structure FormAgreementValues where
  labelName : Option String := none
  labelLegalName : Option String := none
  labelAddress : Option String := none
  labelEmail : Option String := none
  labelSignatory : Option String := none
  distroPartner : Option String := none
  distroFee : Option JsNum := none
  adaFee : Option JsNum := none
  labelShare : Option JsNum := none
  releaseTitle : Option String := none
  releaseDate : Option DayjsDate := none
  releaseDateISO : Option String := none
  releaseUPC : Option String := none
  releaseISRC : Option String := none
  mainArtists : Option (List String) := none
  featuredArtists : Option (List String) := none
  licensors : Option (List LicensorEntry) := none
  royaltyParties : Option (List RoyaltyPartyEntry) := none
  artists : Option (List LegacyArtistEntry) := none
deriving DecidableEq, Repr

/-- `FALLBACK_FORM_VALUES` from AgreementForm.tsx. -/
def FALLBACK_FORM_VALUES : FormAgreementValues where
  labelName := some "Engeloop Records"
  labelLegalName := some "Algorythm Limited"
  labelAddress := some "Waterpoint Apartments, A6102, SLM 1020, Sliema, Malta"
  labelEmail := some "business@engeloop.com"
  labelSignatory := some "Philip Bilén"
  distroPartner := some "LoudKult AB"
  distroFee := some (.num 15)
  adaFee := some (.num 10)
  labelShare := some (.num 60)
  releaseTitle := some ""
  releaseDate := none
  releaseDateISO := none
  releaseUPC := some ""
  releaseISRC := some ""
  mainArtists := some []
  featuredArtists := some []
  licensors := some []
  royaltyParties := some []

/-! ## Share validation (AgreementForm.tsx, `computeShareMetrics`) -/

/-- `Number(x ?? 0)`: a missing/null share coerces to `0`. -/
def coerceShare : Option JsNum → JsNum
  | none => .num 0
  | some j => j

/-- The `royaltyParties.reduce` of `computeShareMetrics`: accumulate the
finite shares left to right and record in the second component whether
any share failed `Number.isFinite` (such a share is skipped in the
sum). -/
def partyScan (l : List RoyaltyPartyEntry) : ℚ × Bool :=
  l.foldl
    (fun acc p =>
      match coerceShare p.royaltyShare with
      | .nan => (acc.1, true)
      | .num q => (acc.1 + q, acc.2))
    (0, false)

/-- Result of `computeShareMetrics`. -/
structure ShareMetrics where
  total : JsNum
  error : Option String
deriving DecidableEq, Repr

/-- `computeShareMetrics` from AgreementForm.tsx: label share plus the
sum of the parties' finite shares, rounded via `toFixed(2)`, checked
against the 100% ± 0.01 invariant. -/
def computeShareMetrics (v : FormAgreementValues) : ShareMetrics :=
  let labelShare := coerceShare v.labelShare
  let scan := partyScan (v.royaltyParties.getD [])
  let total := jsToFixed2 (jsAdd labelShare (.num scan.1))
  if scan.2 then
    ⟨total, some "Enter numeric royalty shares for all parties."⟩
  else if jsGtAbsDiff total 100 (1 / 100) then
    ⟨total, some ("Total royalty allocation must equal 100%. Currently "
      ++ jsNumToString total ++ "%")⟩
  else
    ⟨total, none⟩

/-- The condition of claim C2 as stated: every party share coerces to a
finite number and the raw (unrounded) total is within 0.01 of 100. -/
def claimRawTotalOk (v : FormAgreementValues) : Bool :=
  let scan := partyScan (v.royaltyParties.getD [])
  match jsAdd (coerceShare v.labelShare) (.num scan.1) with
  | .num s => !scan.2 && decide (|s - 100| ≤ 1 / 100)
  | .nan => false

/-! ## Dates (dayjs, modelled on strict ISO `YYYY-MM-DD` values) -/

/-- The digit character for `n % 10`. -/
def digitChar (n : Nat) : Char := Char.ofNat (48 + n % 10)

/-- The numeric value of a digit character. -/
def digitVal (c : Char) : Nat := c.toNat - 48

/-- ASCII digit test. -/
def isDigitCh (c : Char) : Bool := 48 ≤ c.toNat && c.toNat ≤ 57

/-- Gregorian leap-year rule. -/
def leapYear (y : Nat) : Bool :=
  y % 4 = 0 && (y % 100 ≠ 0 || y % 400 = 0)

/-- Days in a month of the Gregorian calendar. -/
def daysInMonth (y m : Nat) : Nat :=
  if m = 2 then (if leapYear y then 29 else 28)
  else if m = 4 ∨ m = 6 ∨ m = 9 ∨ m = 11 then 30
  else 31

/-- A `DayjsDate` whose components form an actual calendar date in the
year range where the `YYYY` format token prints exactly four digits
(dayjs objects obtained from the date picker or from parsing are always
normalized, so this is the class of representable dates the model
covers). -/
def isRealDate (dt : DayjsDate) : Prop :=
  1 ≤ dt.m ∧ dt.m ≤ 12 ∧ 1 ≤ dt.d ∧ dt.d ≤ daysInMonth dt.y dt.m ∧ dt.y ≤ 9999

instance (dt : DayjsDate) : Decidable (isRealDate dt) := by
  unfold isRealDate; infer_instance

/-- Two zero-padded digits (`MM` / `DD` format tokens). -/
def pad2 (n : Nat) : List Char := [digitChar (n / 10), digitChar n]

/-- Four zero-padded digits (`YYYY` format token, years up to 9999). -/
def pad4 (n : Nat) : List Char :=
  [digitChar (n / 1000), digitChar (n / 100), digitChar (n / 10), digitChar n]

/-- `date.format('YYYY-MM-DD')`. -/
def formatYMD (dt : DayjsDate) : String :=
  String.mk (pad4 dt.y ++ '-' :: (pad2 dt.m ++ '-' :: pad2 dt.d))

/-- `dayjs(string)` restricted to strict in-range ISO `YYYY-MM-DD` input.
dayjs also accepts other host-defined formats and normalizes overflowing
components; the theorems below only apply this parser to strings produced
by `formatYMD` from real dates, where the model is exact. -/
def parseIsoChars : List Char → Option DayjsDate
  | [y1, y2, y3, y4, s1, m1, m2, s2, d1, d2] =>
    if s1 = '-' ∧ s2 = '-' ∧ [y1, y2, y3, y4, m1, m2, d1, d2].all isDigitCh then
      let y := 1000 * digitVal y1 + 100 * digitVal y2 + 10 * digitVal y3 + digitVal y4
      let m := 10 * digitVal m1 + digitVal m2
      let d := 10 * digitVal d1 + digitVal d2
      if 1 ≤ m ∧ m ≤ 12 ∧ 1 ≤ d ∧ d ≤ daysInMonth y m then some ⟨y, m, d⟩ else none
    else none
  | _ => none

/-! ## Agreement reconciler (AgreementForm.tsx) -/

/-- Left-biased choice, modelling a spread/`??` fallback chain in which
absent, `undefined` and `null` are conflated (`none`). -/
def oOr {α : Type} : Option α → Option α → Option α
  | some v, _ => some v
  | none, b => b

/-- `parseDate` from AgreementForm.tsx, applied to a persisted value
(string, null or absent): a non-blank string is parsed by dayjs (invalid
input gives `null`); everything else gives `null`.  The dayjs-input
branch of the source (`dayjs.isDayjs(value)`) is represented at the call
site in `toFormValues` by falling back to the form value itself. -/
def parseDate (v : Option String) : Option DayjsDate :=
  match v with
  | none => none
  | some s => if (jsTrim s).data.isEmpty then none else parseIsoChars s.data

/-- `toFormValues` from AgreementForm.tsx: prefer every persisted field,
fall back to the given form values otherwise; array fields are copied
(copying is identity in this value model) and normalized to present
arrays on the fallback side; the release date is parsed from the
persisted string, falling back to the fallback's date object; and when
only the legacy `artists` list is present, licensors and royalty parties
are projected from it. -/
def toFormValues (persisted : Option AgreementDefaults)
    (fallback : FormAgreementValues) : FormAgreementValues :=
  let source := persisted.getD {}
  let clonedFallback : FormAgreementValues :=
    { fallback with
      mainArtists := some (fallback.mainArtists.getD [])
      featuredArtists := some (fallback.featuredArtists.getD [])
      licensors := some (fallback.licensors.getD [])
      royaltyParties := some (fallback.royaltyParties.getD []) }
  let merged : FormAgreementValues :=
    { labelName := oOr source.labelName clonedFallback.labelName
      labelLegalName := oOr source.labelLegalName clonedFallback.labelLegalName
      labelAddress := oOr source.labelAddress clonedFallback.labelAddress
      labelEmail := oOr source.labelEmail clonedFallback.labelEmail
      labelSignatory := oOr source.labelSignatory clonedFallback.labelSignatory
      distroPartner := oOr source.distroPartner clonedFallback.distroPartner
      distroFee := oOr source.distroFee clonedFallback.distroFee
      adaFee := oOr source.adaFee clonedFallback.adaFee
      labelShare := oOr source.labelShare clonedFallback.labelShare
      releaseTitle := oOr source.releaseTitle clonedFallback.releaseTitle
      releaseDate := oOr (parseDate source.releaseDate) clonedFallback.releaseDate
      releaseDateISO :=
        match source.releaseDateISO with
        | some s => some s
        | none => clonedFallback.releaseDateISO
      releaseUPC := oOr source.releaseUPC clonedFallback.releaseUPC
      releaseISRC := oOr source.releaseISRC clonedFallback.releaseISRC
      mainArtists :=
        match source.mainArtists with
        | some l => some l
        | none => clonedFallback.mainArtists
      featuredArtists :=
        match source.featuredArtists with
        | some l => some l
        | none => clonedFallback.featuredArtists
      licensors :=
        match source.licensors with
        | some l => some l
        | none => clonedFallback.licensors
      royaltyParties :=
        match source.royaltyParties with
        | some l => some l
        | none => clonedFallback.royaltyParties
      artists := oOr source.artists clonedFallback.artists }
  match source.artists with
  | some (a :: rest) =>
    let legacy := a :: rest
    let m1 :=
      if (merged.licensors.getD []).isEmpty then
        { merged with
          licensors := some (legacy.map (fun ar =>
            { stageName := ar.stageName, legalName := ar.legalName,
              address := ar.address, email := ar.email : LicensorEntry })) }
      else merged
    if (m1.royaltyParties.getD []).isEmpty then
      { m1 with
        royaltyParties := some (legacy.map (fun ar =>
          { displayName := ar.stageName, legalName := ar.legalName,
            role := ar.role, royaltyShare := ar.royaltyShare,
            email := ar.email : RoyaltyPartyEntry })) }
    else m1
  | _ => merged

/-- `toPersisted` from AgreementForm.tsx: serialize the dayjs release
date to an ISO string (falling back to the stored ISO string), mirror it
into both date fields, and drop the legacy `artists` list. -/
def toPersisted (values : FormAgreementValues) : AgreementDefaults :=
  let releaseDateIso : Option String :=
    match values.releaseDate with
    | some d => some (formatYMD d)
    | none => values.releaseDateISO
  { labelName := values.labelName
    labelLegalName := values.labelLegalName
    labelAddress := values.labelAddress
    labelEmail := values.labelEmail
    labelSignatory := values.labelSignatory
    distroPartner := values.distroPartner
    distroFee := values.distroFee
    adaFee := values.adaFee
    labelShare := values.labelShare
    releaseTitle := values.releaseTitle
    releaseDate := releaseDateIso
    releaseDateISO := releaseDateIso
    releaseUPC := values.releaseUPC
    releaseISRC := values.releaseISRC
    mainArtists := values.mainArtists
    featuredArtists := values.featuredArtists
    licensors := values.licensors
    royaltyParties := values.royaltyParties
    artists := none }

/-! ## Config merger (src config.ts) -/

/-- `artist.stageName?.trim()` with the `if (!stageName) return` guard:
the trimmed stage name when present and non-empty. -/
def trimmedStage (ar : LegacyArtistEntry) : Option String :=
  match ar.stageName with
  | none => none
  | some sn => if jsTrim sn = "" then none else some (jsTrim sn)

/-- `(artist.role ?? '').toLowerCase().includes('main')`. -/
def isMainRole (ar : LegacyArtistEntry) : Bool :=
  containsList (jsToLower (ar.role.getD "")).data "main".data

/-- `(artist.role ?? '').toLowerCase().includes('featured')`. -/
def isFeaturedRole (ar : LegacyArtistEntry) : Bool :=
  containsList (jsToLower (ar.role.getD "")).data "featured".data

/-- The `forEach` of `deriveFromLegacyArtists` building the main and
featured name lists: entries without a usable stage name are skipped;
a role containing "main" goes to the main list, otherwise a role
containing "featured" goes to the featured list. -/
def legacyMainFeatured : List LegacyArtistEntry → List String × List String
  | [] => ([], [])
  | ar :: rest =>
    let acc := legacyMainFeatured rest
    match trimmedStage ar with
    | none => acc
    | some t =>
      if isMainRole ar then (t :: acc.1, acc.2)
      else if isFeaturedRole ar then (acc.1, t :: acc.2)
      else acc

/-- The four lists derived from the legacy artist list. -/
structure DerivedPartyLists where
  mainArtists : List String
  featuredArtists : List String
  licensors : List LicensorEntry
  royaltyParties : List RoyaltyPartyEntry
deriving DecidableEq, Repr

/-- `deriveFromLegacyArtists` from config.ts. -/
def deriveFromLegacyArtists (legacy : List LegacyArtistEntry) : DerivedPartyLists :=
  { mainArtists := (legacyMainFeatured legacy).1
    featuredArtists := (legacyMainFeatured legacy).2
    licensors := legacy.map (fun ar =>
      { stageName := some (ar.stageName.getD "")
        legalName := some (ar.legalName.getD "")
        address := some (ar.address.getD "")
        email := some (ar.email.getD "") })
    royaltyParties := legacy.map (fun ar =>
      { displayName := some (ar.stageName.getD "")
        legalName := some (ar.legalName.getD "")
        role := some (ar.role.getD "Artist")
        royaltyShare := ar.royaltyShare
        email := some (ar.email.getD "") }) }

/-- `Array.isArray(v) && v.length > 0`. -/
def hasEntries {α : Type} : Option (List α) → Bool
  | some (_ :: _) => true
  | _ => false

/-- The `Object.entries(override).forEach` loop of
`mergeAgreementDefaults`: every present (non-undefined, non-null)
override field replaces the base field; array fields are replaced
wholesale (the source's element cloning is the identity in this value
model). -/
def mergeFields (base ovr : AgreementDefaults) : AgreementDefaults :=
  { labelName := oOr ovr.labelName base.labelName
    labelLegalName := oOr ovr.labelLegalName base.labelLegalName
    labelAddress := oOr ovr.labelAddress base.labelAddress
    labelEmail := oOr ovr.labelEmail base.labelEmail
    labelSignatory := oOr ovr.labelSignatory base.labelSignatory
    distroPartner := oOr ovr.distroPartner base.distroPartner
    distroFee := oOr ovr.distroFee base.distroFee
    adaFee := oOr ovr.adaFee base.adaFee
    labelShare := oOr ovr.labelShare base.labelShare
    releaseTitle := oOr ovr.releaseTitle base.releaseTitle
    releaseDate := oOr ovr.releaseDate base.releaseDate
    releaseDateISO := oOr ovr.releaseDateISO base.releaseDateISO
    releaseUPC := oOr ovr.releaseUPC base.releaseUPC
    releaseISRC := oOr ovr.releaseISRC base.releaseISRC
    mainArtists := oOr ovr.mainArtists base.mainArtists
    featuredArtists := oOr ovr.featuredArtists base.featuredArtists
    licensors := oOr ovr.licensors base.licensors
    royaltyParties := oOr ovr.royaltyParties base.royaltyParties
    artists := oOr ovr.artists base.artists }

/-- `mergeAgreementDefaults` from config.ts: field-by-field merge, then,
when the merged legacy `artists` list is non-empty and neither modern
party list has entries, fill each of the four modern lists from the
legacy derivation unless it already has entries. -/
def mergeAgreementDefaults (base : AgreementDefaults)
    (ovr : Option AgreementDefaults) : AgreementDefaults :=
  match ovr with
  | none => base
  | some o =>
    let merged := mergeFields base o
    match merged.artists with
    | some (a :: rest) =>
      if hasEntries merged.licensors || hasEntries merged.royaltyParties then merged
      else
        let derived := deriveFromLegacyArtists (a :: rest)
        { merged with
          mainArtists :=
            if hasEntries merged.mainArtists then merged.mainArtists
            else some derived.mainArtists
          featuredArtists :=
            if hasEntries merged.featuredArtists then merged.featuredArtists
            else some derived.featuredArtists
          licensors :=
            if hasEntries merged.licensors then merged.licensors
            else some derived.licensors
          royaltyParties :=
            if hasEntries merged.royaltyParties then merged.royaltyParties
            else some derived.royaltyParties }
    | _ => merged

/-! ## Config-file generation (src generator.ts, `generateConfig`)

`generateConfig` writes the template-inclusion file: thirteen
`\newcommand` lines rendering the scalar fields (JavaScript-falsy values
replaced by bracketed placeholders, or `--` for the three numeric
fields) followed by one command per usable party-list entry. -/

/-- `value || placeholder` for string fields: absent/null/empty-string
values are falsy and give the placeholder. -/
def jsOrStr (v : Option String) (ph : String) : String :=
  match v with
  | some s => if s = "" then ph else s
  | none => ph

/-- `value || placeholder` for numeric fields followed by the
`String(...)` coercion: absent/null, `0` and `NaN` are falsy and give the
placeholder. -/
def jsOrNum (v : Option JsNum) (ph : String) : String :=
  match v with
  | some (.num q) => if q = 0 then ph else ratToString q
  | some .nan => ph
  | none => ph

/-- A rendered scalar value: falsy fallback, then sanitized. -/
def scalarToken (v : Option String) (ph : String) : String :=
  sanitizeStr (jsOrStr v ph)

/-- A rendered numeric value: falsy fallback to `--`, then sanitized. -/
def numToken (v : Option JsNum) (ph : String) : String :=
  sanitizeStr (jsOrNum v ph)

/-- One `\newcommand` line of the generated config file. -/
def configLine (name value : String) : String :=
  "\\newcommand\x7b\\" ++ name ++ "\x7d\x7b" ++ value ++ "\x7d"

/-- The thirteen scalar `\newcommand` lines of `generateConfig`, in
source order. -/
def generateConfigLines (d : AgreementDefaults) : List String :=
  [configLine "labelName" (scalarToken d.labelName "[Label Name]"),
   configLine "labelLegalName" (scalarToken d.labelLegalName "[Label Legal Name]"),
   configLine "labelAddress" (scalarToken d.labelAddress "[Label Address]"),
   configLine "labelEmail" (scalarToken d.labelEmail "[Label Email]"),
   configLine "labelSignatory" (scalarToken d.labelSignatory "[Authorised Signatory]"),
   configLine "distroPartner" (scalarToken d.distroPartner "[Distribution Partner]"),
   configLine "distroFee" (numToken d.distroFee "--"),
   configLine "adaFee" (numToken d.adaFee "--"),
   configLine "labelShare" (numToken d.labelShare "--"),
   configLine "releaseTitle" (scalarToken d.releaseTitle "[Release Title]"),
   configLine "releaseDate" (scalarToken d.releaseDate "[Release Date]"),
   configLine "releaseUPC" (scalarToken d.releaseUPC "[UPC]"),
   configLine "releaseISRC" (scalarToken d.releaseISRC "[ISRC]")]

/-- The legacy-derived main-artist names of `generateConfig` (filters are
independent here, unlike the config merger's derivation): entries whose
role text contains "main", projected to trimmed non-empty stage names. -/
def genDerivedMainArtists (legacy : List LegacyArtistEntry) : List String :=
  ((legacy.filter (fun ar =>
      match ar.role with
      | some r => containsList (jsToLower r).data "main".data
      | none => false)).map
    (fun ar => jsTrim (ar.stageName.getD ""))).filter (fun s => s ≠ "")

/-- The legacy-derived featured-artist names of `generateConfig`. -/
def genDerivedFeaturedArtists (legacy : List LegacyArtistEntry) : List String :=
  ((legacy.filter (fun ar =>
      match ar.role with
      | some r => containsList (jsToLower r).data "featured".data
      | none => false)).map
    (fun ar => jsTrim (ar.stageName.getD ""))).filter (fun s => s ≠ "")

/-- The legacy-derived licensors of `generateConfig`. -/
def genDerivedLicensors (legacy : List LegacyArtistEntry) : List LicensorEntry :=
  legacy.map (fun ar =>
    { stageName := some (ar.stageName.getD "")
      legalName := some (ar.legalName.getD "")
      address := some (ar.address.getD "")
      email := some (ar.email.getD "") })

/-- The legacy-derived royalty parties of `generateConfig`. -/
def genDerivedRoyaltyParties (legacy : List LegacyArtistEntry) : List RoyaltyPartyEntry :=
  legacy.map (fun ar =>
    { displayName := some (ar.stageName.getD "")
      legalName := some (ar.legalName.getD "")
      role := some (ar.role.getD "Artist")
      royaltyShare := ar.royaltyShare
      email := some (ar.email.getD "") })

/-- Explicit trimmed non-empty main-artist names, else the derived
ones. -/
def resolvedMainArtists (d : AgreementDefaults) : List String :=
  let explicit := ((d.mainArtists.getD []).map jsTrim).filter (fun s => s ≠ "")
  if explicit.isEmpty then genDerivedMainArtists (d.artists.getD []) else explicit

/-- Explicit trimmed non-empty featured-artist names, else the derived
ones. -/
def resolvedFeaturedArtists (d : AgreementDefaults) : List String :=
  let explicit := ((d.featuredArtists.getD []).map jsTrim).filter (fun s => s ≠ "")
  if explicit.isEmpty then genDerivedFeaturedArtists (d.artists.getD []) else explicit

/-- Explicit licensors when non-empty, else the derived ones. -/
def resolvedLicensors (d : AgreementDefaults) : List LicensorEntry :=
  let explicit := d.licensors.getD []
  if explicit.isEmpty then genDerivedLicensors (d.artists.getD []) else explicit

/-- Explicit royalty parties when non-empty, else the derived ones. -/
def resolvedRoyaltyParties (d : AgreementDefaults) : List RoyaltyPartyEntry :=
  let explicit := d.royaltyParties.getD []
  if explicit.isEmpty then genDerivedRoyaltyParties (d.artists.getD []) else explicit

/-- The string form of `party?.royaltyShare ?? ''`. -/
def shareText (v : Option JsNum) : String :=
  match v with
  | some j => jsNumToString j
  | none => ""

/-- The per-entry commands of `generateConfig`, in source order: one per
usable main artist, featured artist, licensor and royalty party; entries
with no usable name are skipped. -/
def configCommands (d : AgreementDefaults) : List String :=
  ((resolvedMainArtists d).filter (fun s => jsTrim s ≠ "")).map
      (fun s => "\\addmainartist\x7b" ++ sanitizeStr (jsTrim s) ++ "\x7d")
    ++ ((resolvedFeaturedArtists d).filter (fun s => jsTrim s ≠ "")).map
      (fun s => "\\addfeaturedartist\x7b" ++ sanitizeStr (jsTrim s) ++ "\x7d")
    ++ ((resolvedLicensors d).filterMap (fun e =>
      let sn := sanitizeStr (e.stageName.getD "")
      let ln := sanitizeStr (e.legalName.getD "")
      if sn = "" ∧ ln = "" then none
      else some ("\\addlicensor\x7b" ++ sn ++ "\x7d\x7b" ++ ln ++ "\x7d\x7b"
        ++ sanitizeStr (e.address.getD "") ++ "\x7d\x7b"
        ++ sanitizeStr (e.email.getD "") ++ "\x7d")))
    ++ ((resolvedRoyaltyParties d).filterMap (fun e =>
      let dn := sanitizeStr (e.displayName.getD "")
      let ln := sanitizeStr (e.legalName.getD "")
      if dn = "" ∧ ln = "" then none
      else some ("\\addroyaltyparty\x7b" ++ dn ++ "\x7d\x7b" ++ ln ++ "\x7d\x7b"
        ++ sanitizeStr (e.role.getD "Artist") ++ "\x7d\x7b"
        ++ sanitizeStr (shareText e.royaltyShare) ++ "\x7d\x7b"
        ++ sanitizeStr (e.email.getD "") ++ "\x7d")))

/-- The full generated config-file content (the source's template
literal: a leading newline, the scalar lines, a blank line, the joined
commands, and the trailing newline-and-indent). -/
def generateConfig (d : AgreementDefaults) : String :=
  "\n" ++ String.intercalate "\n" (generateConfigLines d) ++ "\n\n"
    ++ String.intercalate "\n" (configCommands d) ++ "\n  "

/-! ## Final-mode filename derivation (src main.ts) -/

/-- `\p{L}` / `\p{N}` membership on the ASCII fragment (the Unicode
classes restricted to ASCII are exactly the Latin letters and decimal
digits; NFKD/NFKC normalization is the identity there). -/
def jsIsAlnum (c : Char) : Bool :=
  ('A' ≤ c && c ≤ 'Z') || ('a' ≤ c && c ≤ 'z') || ('0' ≤ c && c ≤ '9')

/-- Every character outside `\p{L}\p{N}` becomes a space (the
per-character half of `replace(/[^\p{L}\p{N}]+/gu, ' ')`). -/
def squashToSpaces (l : List Char) : List Char :=
  l.map (fun c => if jsIsAlnum c then c else ' ')

/-- Collapse runs of spaces to a single space (the run-collapsing half of
the `+` quantifier); the flag records whether the previous character was
a space. -/
def collapseSpacesAux : Bool → List Char → List Char
  | _, [] => []
  | prev, c :: rest =>
    if c = ' ' then
      if prev then collapseSpacesAux true rest
      else ' ' :: collapseSpacesAux true rest
    else c :: collapseSpacesAux false rest

/-- `value.normalize('NFKD').replace(/[^\p{L}\p{N}]+/gu, ' ').trim()` on
ASCII input. -/
def normalizeCompact (l : List Char) : List Char :=
  trimChars (collapseSpacesAux false (squashToSpaces l))

/-- Split on single spaces (the input is already collapsed and trimmed,
where this equals `split(/\s+/)`). -/
def splitSpacesAux (acc : List Char) : List Char → List (List Char)
  | [] => [acc.reverse]
  | c :: rest =>
    if c = ' ' then acc.reverse :: splitSpacesAux [] rest
    else splitSpacesAux (c :: acc) rest

/-- Capitalize one word: first character upper-cased, the rest
lower-cased (ASCII, where `Char.toUpper`/`Char.toLower` agree with
JavaScript). -/
def capitalizeToken : List Char → List Char
  | [] => []
  | c :: rest => c.toUpper :: rest.map Char.toLower

/-- `compactToken` from main.ts: non-strings fall back; otherwise
normalize, strip non-alphanumerics to spaces, trim, and when anything
remains, capitalize each word and join them; empty results fall back. -/
def compactToken (value : Option String) (fallback : String) : String :=
  match value with
  | none => fallback
  | some s =>
    let normalized := normalizeCompact s.data
    if normalized.isEmpty then fallback
    else
      let token := ((splitSpacesAux [] normalized).map capitalizeToken).flatten
      if token.isEmpty then fallback else String.mk token

/-- The characters removed by `sanitizeFilename`'s first character
class. -/
def isForbiddenFileChar (c : Char) : Bool :=
  c = '"' || c = '<' || c = '>' || c = ':' || c = '/' || c = '\\' ||
    c = '|' || c = '?' || c = '*'

/-- The characters kept by `sanitizeFilename`'s second character class
(`[\p{L}\p{N}_.-]` on ASCII). -/
def isFileSafeChar (c : Char) : Bool :=
  jsIsAlnum c || c = '_' || c = '.' || c = '-'

/-- Replace runs of whitespace by a single underscore
(`replace(/\s+/g, '_')`). -/
def wsRunsAux : Bool → List Char → List Char
  | _, [] => []
  | prev, c :: rest =>
    if isJsSpace c then
      if prev then wsRunsAux true rest
      else '_' :: wsRunsAux true rest
    else c :: wsRunsAux false rest

/-- Collapse runs of two or more underscores to one
(`replace(/_{2,}/g, '_')`). -/
def underscoreRunsAux : Bool → List Char → List Char
  | _, [] => []
  | prev, c :: rest =>
    if c = '_' then
      if prev then underscoreRunsAux true rest
      else '_' :: underscoreRunsAux true rest
    else c :: underscoreRunsAux false rest

/-- `sanitizeFilename` from main.ts on ASCII input: NFKC-normalize
(identity on ASCII) and trim; empty gives empty; whitespace runs become
underscores, forbidden and unsafe characters are removed, underscore
runs collapse, and leading dots are stripped. -/
def sanitizeFilename (name : String) : String :=
  let normalized := trimChars name.data
  if normalized.isEmpty then ""
  else
    let withUnderscores := wsRunsAux false normalized
    let s1 := withUnderscores.filter (fun c => !isForbiddenFileChar c)
    let s2 := s1.filter isFileSafeChar
    let s3 := underscoreRunsAux false s2
    String.mk (s3.dropWhile (fun c => c = '.'))

/-- The title token of `buildPdfBaseName`. -/
def titleTokenOf (d : AgreementDefaults) : String :=
  compactToken d.releaseTitle "Release"

/-- The artists token of `buildPdfBaseName`: compacted non-empty main
artist names joined with "-", else "UnknownArtist". -/
def artistsTokenOf (d : AgreementDefaults) : String :=
  let toks := ((d.mainArtists.getD []).map (fun a => compactToken (some a) "")).filter
    (fun t => t ≠ "")
  if toks.isEmpty then "UnknownArtist" else String.intercalate "-" toks

/-- The raw date string of `buildPdfBaseName`: the trimmed
`releaseDateISO` when it is a string, else the trimmed `releaseDate`
when it is a string, else empty. -/
def rawDateOf (d : AgreementDefaults) : String :=
  match d.releaseDateISO with
  | some s => jsTrim s
  | none =>
    match d.releaseDate with
    | some s => jsTrim s
    | none => ""

/-- The regex `/^\d{4}-\d{2}-\d{2}$/`. -/
def matchesIsoDate : List Char → Bool
  | [a, b, c, d, e, f, g, h, i, j] =>
    isDigitCh a && isDigitCh b && isDigitCh c && isDigitCh d && e = '-' &&
      isDigitCh f && isDigitCh g && h = '-' && isDigitCh i && isDigitCh j
  | _ => false

/-- The date token of `buildPdfBaseName`: an already-ISO raw date is
kept; otherwise a non-empty raw date is parsed (`new Date(...)`,
modelled by the strict ISO parser; other host-defined formats are out of
the model's scope) and re-serialized; everything else falls back to
"DateUnknown". -/
def dateTokenOf (d : AgreementDefaults) : String :=
  let raw := rawDateOf d
  if matchesIsoDate raw.data then raw
  else if raw.data.isEmpty then "DateUnknown"
  else
    match parseIsoChars raw.data with
    | some dt => formatYMD dt
    | none => "DateUnknown"

/-- `buildPdfBaseName` from main.ts. -/
def buildPdfBaseName (d : AgreementDefaults) : String :=
  let baseName := titleTokenOf d ++ "_" ++ artistsTokenOf d ++ "_" ++ dateTokenOf d
  let sanitized := sanitizeFilename baseName
  if sanitized = "" then "Engeloop_Agreement" else sanitized

/-! ## Compile orchestrator (src generator.ts, `compilePdf`)

`compilePdf` is effectful; it is embedded as a pure function of an
environment recording the outcomes of its external interactions
(template presence, the compiler's exit, output-file presence, rename
success).  The auxiliary-file cleanup invocation never influences the
promise and is omitted; `path.resolve` is the identity on the absolute
normalized paths used here, so paths are compared literally. -/

/-- The `error.code` of a Node `exec` callback: a number, a string, or
absent. -/
inductive RawExitCode where
  | intCode (n : Int)
  | strCode (s : String)
  | undef
deriving DecidableEq, Repr

/-- The numeric value of a trimmed digit string. -/
def digitsVal (l : List Char) : Int :=
  l.foldl (fun acc c => 10 * acc + Int.ofNat (digitVal c)) 0

/-- `Number(string)` restricted to what the exit-code comparison
observes: a blank string is 0, a digit string has its value, anything
else is `NaN` (`none`, which compares unequal to 12). -/
def jsNumberOfString (s : String) : Option Int :=
  let t := (jsTrim s).data
  if t.isEmpty then some 0
  else if t.all isDigitCh then some (digitsVal t) else none

/-- The `numericExitCode` coercion of `compilePdf`. -/
def numericExitCode : RawExitCode → Option Int
  | .intCode n => some n
  | .strCode s => jsNumberOfString s
  | .undef => none

/-- The environment of one `compilePdf` run: `execError = none` models
the compiler exiting 0 (Node's `exec` reports no error exactly then). -/
structure CompileEnv where
  templateFileExists : Bool
  execError : Option RawExitCode
  errMsg : String
  generatedPdfExists : Bool
  renameSucceeds : Bool
deriving DecidableEq, Repr

/-- `needle` is a suffix of `hay` (`String.prototype.endsWith`). -/
def endsWithList {α : Type} [DecidableEq α] (hay needle : List α) : Bool :=
  startsWithList needle.reverse hay.reverse

/-- The compiler's fixed output filename. -/
def pdfFileName : String := "master-agreement-template.pdf"

/-- The compiler's output path inside the output directory. -/
def generatedPdfPathOf (outputDir : String) : String :=
  outputDir ++ "/" ++ pdfFileName

/-- The desired base name with a trailing ".pdf" stripped. -/
def desiredBaseOf (pdfBaseName : String) : String :=
  if endsWithList pdfBaseName.data ".pdf".data then
    String.mk (pdfBaseName.data.take (pdfBaseName.data.length - 4))
  else pdfBaseName

/-- The caller-visible output path. -/
def desiredPdfPathOf (outputDir pdfBaseName : String) : String :=
  outputDir ++ "/" ++ desiredBaseOf pdfBaseName ++ ".pdf"

/-- The `finishSuccess` continuation of `compilePdf`: reject when the
expected output is missing; otherwise rename to the desired path when it
differs (rejecting distinctly on rename failure) and resolve with the
final path. -/
def compilePdfFinish (env : CompileEnv) (outputDir pdfBaseName : String) :
    Except String String :=
  if env.generatedPdfExists = false then
    .error "PDF file was not created by LaTeX. Check logs for compilation errors."
  else if generatedPdfPathOf outputDir ≠ desiredPdfPathOf outputDir pdfBaseName then
    if env.renameSucceeds then .ok (desiredPdfPathOf outputDir pdfBaseName)
    else .error ("PDF was generated but could not be renamed: " ++ env.errMsg)
  else .ok (generatedPdfPathOf outputDir)

/-- `compilePdf` from generator.ts: missing template rejects
immediately; an exec error is tolerated only for exit code 12 with the
output PDF present; otherwise the captured diagnostics are surfaced. -/
def compilePdf (env : CompileEnv) (outputDir pdfBaseName : String) :
    Except String String :=
  if env.templateFileExists = false then
    .error "LaTeX template file not found"
  else
    match env.execError with
    | none => compilePdfFinish env outputDir pdfBaseName
    | some raw =>
      if numericExitCode raw = some 12 ∧ env.generatedPdfExists = true then
        compilePdfFinish env outputDir pdfBaseName
      else
        .error ("PDF compilation failed. See console for details. Error: " ++ env.errMsg)

/-! ## Project path containment (src main.ts) -/

/-- `path.resolve` on an absolute path given as segments: `.` and empty
segments vanish and `..` pops (staying at the root when empty).  The
accumulator is a reversed stack. -/
def resolveSegs (l : List String) : List String :=
  (l.foldl (fun acc seg =>
    if seg = "." ∨ seg = "" then acc
    else if seg = ".." then acc.tail
    else seg :: acc) []).reverse

/-- `isWithinDirectory` from main.ts: the resolved candidate differs
from the resolved parent and `path.relative(parent, candidate)` neither
starts with ".." nor is absolute — that is, the resolved parent is a
strict ancestor of the resolved candidate. -/
def isWithinDirectory (parent candidate : List String) : Bool :=
  !(resolveSegs parent = resolveSegs candidate) &&
    startsWithList (resolveSegs parent) (resolveSegs candidate)

/-- A filesystem mutation a project handler may perform. -/
inductive FsAction where
  | removeDir (p : List String)
  | renameDir (src dst : List String)
  | copyDir (src dst : List String)
deriving DecidableEq, Repr

/-- A handler's result: a success flag and the mutations performed. -/
structure HandlerOutcome where
  ok : Bool
  actions : List FsAction
deriving DecidableEq, Repr

/-- The `projects:delete` IPC handler over an abstract filesystem (the
list of existing directories); `none` models a non-string or blank
path.  Mutation failures inside the try block are out of scope: the
claim concerns the rejections that happen before any mutation. -/
def deleteProjectHandler (fs : List (List String)) (root : List String)
    (projectPath : Option (List String)) : HandlerOutcome :=
  match projectPath with
  | none => ⟨false, []⟩
  | some p =>
    if isWithinDirectory root p = false ∨ fs.contains p = false then ⟨false, []⟩
    else ⟨true, [.removeDir p]⟩

/-- The `projects:rename` IPC handler; `newName = none` models a
non-string or blank name. -/
def renameProjectHandler (fs : List (List String)) (root : List String)
    (currentPath : List String) (newName : Option String) : HandlerOutcome :=
  match newName with
  | none => ⟨false, []⟩
  | some n =>
    let sanitized := sanitizeFilename (jsTrim n)
    if sanitized = "" then ⟨false, []⟩
    else
      let newPath := root ++ [sanitized]
      if isWithinDirectory root newPath = false then ⟨false, []⟩
      else if isWithinDirectory root currentPath = false ∨ fs.contains currentPath = false then
        ⟨false, []⟩
      else if fs.contains newPath then ⟨false, []⟩
      else ⟨true, [.renameDir currentPath newPath]⟩

/-- The `projects:duplicate` IPC handler. -/
def duplicateProjectHandler (fs : List (List String)) (root : List String)
    (sourcePath : Option (List String)) (newName : Option String) : HandlerOutcome :=
  match newName with
  | none => ⟨false, []⟩
  | some n =>
    match sourcePath with
    | none => ⟨false, []⟩
    | some src =>
      if isWithinDirectory root src = false ∨ fs.contains src = false then ⟨false, []⟩
      else
        let sanitized := sanitizeFilename (jsTrim n)
        if sanitized = "" then ⟨false, []⟩
        else
          let target := root ++ [sanitized]
          if isWithinDirectory root target = false then ⟨false, []⟩
          else if fs.contains target then ⟨false, []⟩
          else ⟨true, [.copyDir src target]⟩

/-! ## Operation sequencer (AgreementForm.tsx)

The component's refs, state hooks, pending debounce timers and in-flight
compile promises form an explicit state; each callback becomes a step
function returning the next state and the externally visible effects
(an IPC save, an IPC compile dispatch, a preview display update).  A
timer payload carries the snapshot, the stamped operation id and the
project path captured by the closure (`activeProject.path` at creation
time); `currentProjectPath` is the live `currentProjectPathRef`. -/

/-- Preview or final compile mode. -/
inductive PdfMode where
  | preview
  | final
deriving DecidableEq, Repr

/-- The preview status state hook. -/
inductive PreviewStatus where
  | idle
  | generating
  | success
  | error
deriving DecidableEq, Repr

/-- A scheduled (or immediately executed) task's payload: the cloned
snapshot, the stamped operation id, and the captured project path. -/
structure TimerTask where
  snap : FormAgreementValues
  op : Nat
  projPath : String
deriving DecidableEq, Repr

/-- An in-flight `generate-pdf` invocation awaiting completion. -/
structure InflightCompile where
  snap : FormAgreementValues
  op : Nat
  mode : PdfMode
  projPath : String
deriving DecidableEq, Repr

/-- The outcome the main process reports for a compile. -/
inductive GenResult where
  | ok (pdfPath : String)
  | failed (msg : String)
deriving DecidableEq, Repr

/-- The sequencer state of one mounted `AgreementForm`. -/
structure SeqState where
  opId : Nat
  lastValidOpId : Option Nat
  validatedSnapshot : Option FormAgreementValues
  validationTimer : Option TimerTask
  previewTimer : Option TimerTask
  saveTimer : Option TimerTask
  inflight : List InflightCompile
  lastSuccessfulOpId : Option Nat
  lastSuccessfulSnapshot : Option FormAgreementValues
  displayedPdf : Option String
  previewStatus : PreviewStatus
  previewError : Option String
  isPreviewStale : Bool
  isGenerating : Bool
  shareTotal : JsNum
  shareError : Option String
  latestValues : FormAgreementValues
  currentProjectPath : String
deriving Repr

/-- An externally visible effect of a step. -/
inductive SeqEffect where
  | saveData (snap : FormAgreementValues) (op : Nat) (projPath : String)
  | startCompile (snap : FormAgreementValues) (op : Nat) (mode : PdfMode)
  | displayPdf (p : String)
deriving DecidableEq, Repr

/-- `runAutoSave`: at execution time the tagged id must equal both the
current and the last-validated id and the project path must be
unchanged, otherwise no side effect is performed; on success the
persisted payload is saved over IPC. -/
def runAutoSave (s : SeqState) (snap : FormAgreementValues) (op : Nat)
    (projPath : String) : SeqState × List SeqEffect :=
  if op ≠ s.opId ∨ s.lastValidOpId ≠ some op then (s, [])
  else if s.currentProjectPath ≠ projPath then (s, [])
  else (s, [.saveData snap op projPath])

/-- The synchronous prefix of `runPdfGeneration`: the same id and
project-path gate, then the generating UI state and the IPC compile
dispatch, recorded in `inflight`. -/
def runPdfGenerationStart (s : SeqState) (snap : FormAgreementValues) (op : Nat)
    (mode : PdfMode) (projPath : String) : SeqState × List SeqEffect :=
  if op ≠ s.opId ∨ s.lastValidOpId ≠ some op then (s, [])
  else if s.currentProjectPath ≠ projPath then (s, [])
  else
    ({ s with
        previewStatus := .generating
        previewError := none
        isGenerating := true
        inflight := ⟨snap, op, mode, projPath⟩ :: s.inflight },
      [.startCompile snap op mode])

/-- The completion handler of `runPdfGeneration` (the code after the
`await`): a result whose stamped id is no longer current is discarded
without touching any state; a current success updates the displayed
preview and the last-successful snapshot, a current failure surfaces the
error.  A completion with no matching in-flight entry cannot occur and
is a no-op. -/
def runPdfGenerationSettle (s : SeqState) (entry : InflightCompile)
    (res : GenResult) : SeqState × List SeqEffect :=
  if entry ∈ s.inflight then
    let s0 := { s with inflight := s.inflight.erase entry }
    if entry.op ≠ s0.opId then (s0, [])
    else
      match res with
      | .ok p =>
        ({ s0 with
            displayedPdf := some p
            lastSuccessfulOpId := some entry.op
            lastSuccessfulSnapshot := some entry.snap
            previewStatus := .success
            isPreviewStale := false
            isGenerating := false },
          [.displayPdf p])
      | .failed m =>
        ({ s0 with
            previewStatus := .error
            previewError := some m
            isGenerating := false },
          [])
  else (s, [])

/-- `performValidation`: a superseded id aborts silently; an error
clears the last-validated id and snapshot and cancels the pending
preview and save timers; success marks the id validated, marks the
preview stale, and schedules the preview and save tasks tagged with this
id. -/
def performValidation (s : SeqState) (snap : FormAgreementValues) (op : Nat) :
    SeqState × List SeqEffect :=
  if op ≠ s.opId then (s, [])
  else
    let m := computeShareMetrics snap
    let s1 := { s with latestValues := snap, shareTotal := m.total, shareError := m.error }
    match m.error with
    | some _ =>
      ({ s1 with
          lastValidOpId := none
          validatedSnapshot := none
          previewTimer := none
          saveTimer := none },
        [])
    | none =>
      ({ s1 with
          lastValidOpId := some op
          validatedSnapshot := some snap
          isPreviewStale := true
          previewTimer := some ⟨snap, op, s.currentProjectPath⟩
          saveTimer := some ⟨snap, op, s.currentProjectPath⟩ },
        [])

/-- The events that drive the sequencer: form edits, debounce timers
firing, compile completions, the manual save/preview/final handlers, the
retry button, and a project switch (the unmount/reset half of the
project-switch effect; the subsequent hydration is its own event). -/
inductive SeqEvent where
  | edit (snap : FormAgreementValues)
  | fireValidation
  | firePreview
  | fireSave
  | settleCompile (entry : InflightCompile) (res : GenResult)
  | manualSave (snap : FormAgreementValues)
  | manualGenerate (snap : FormAgreementValues)
  | finalGenerate (snap : FormAgreementValues)
  | retryPreview
  | switchProject (p : String)
  | hydrate (snap : FormAgreementValues)
deriving Repr

/-- One step of the sequencer, mirroring the corresponding callback. -/
def seqStep (s : SeqState) : SeqEvent → SeqState × List SeqEffect
  | .edit snap =>
    let n := s.opId + 1
    ({ s with
        opId := n
        latestValues := snap
        validationTimer := some ⟨snap, n, s.currentProjectPath⟩ },
      [])
  | .fireValidation =>
    match s.validationTimer with
    | none => (s, [])
    | some t => performValidation { s with validationTimer := none } t.snap t.op
  | .firePreview =>
    match s.previewTimer with
    | none => (s, [])
    | some t =>
      runPdfGenerationStart { s with previewTimer := none } t.snap t.op .preview t.projPath
  | .fireSave =>
    match s.saveTimer with
    | none => (s, [])
    | some t => runAutoSave { s with saveTimer := none } t.snap t.op t.projPath
  | .settleCompile entry res => runPdfGenerationSettle s entry res
  | .manualSave snap =>
    let m := computeShareMetrics snap
    let s1 := { s with latestValues := snap, shareTotal := m.total, shareError := m.error }
    match m.error with
    | some _ => (s1, [])
    | none =>
      let n := s1.opId + 1
      let s2 := { s1 with
        opId := n
        lastValidOpId := some n
        validatedSnapshot := some snap
        saveTimer := none }
      runAutoSave s2 snap n s2.currentProjectPath
  | .manualGenerate snap =>
    let m := computeShareMetrics snap
    let s1 := { s with latestValues := snap, shareTotal := m.total, shareError := m.error }
    match m.error with
    | some _ => (s1, [])
    | none =>
      let n := s1.opId + 1
      let s2 := { s1 with
        opId := n
        lastValidOpId := some n
        validatedSnapshot := some snap
        previewTimer := none }
      let r := runPdfGenerationStart s2 snap n .preview s2.currentProjectPath
      ({ r.1 with saveTimer := some ⟨snap, n, r.1.currentProjectPath⟩ }, r.2)
  | .finalGenerate snap =>
    let m := computeShareMetrics snap
    let s1 := { s with latestValues := snap, shareTotal := m.total, shareError := m.error }
    match m.error with
    | some _ => (s1, [])
    | none =>
      let n := s1.opId + 1
      let s2 := { s1 with
        opId := n
        lastValidOpId := some n
        validatedSnapshot := some snap
        saveTimer := none }
      let r := runAutoSave s2 snap n s2.currentProjectPath
      let r2 := runPdfGenerationStart r.1 snap n .final r.1.currentProjectPath
      (r2.1, r.2 ++ r2.2)
  | .retryPreview =>
    let snap? := oOr s.validatedSnapshot s.lastSuccessfulSnapshot
    let op? := oOr s.lastValidOpId s.lastSuccessfulOpId
    match snap?, op? with
    | some snap, some op =>
      runPdfGenerationStart { s with previewTimer := none } snap op .preview
        s.currentProjectPath
    | _, _ => (s, [])
  | .switchProject p =>
    ({ s with
        validationTimer := none
        previewTimer := none
        saveTimer := none
        opId := s.opId + 1
        lastValidOpId := none
        validatedSnapshot := none
        previewStatus := .idle
        previewError := none
        isPreviewStale := false
        currentProjectPath := p },
      [])
  | .hydrate snap =>
    let n := s.opId + 1
    let r := performValidation { s with opId := n, latestValues := snap } snap n
    ({ r.1 with isPreviewStale := false }, r.2)

/-- Run a sequence of events, concatenating the emitted effects. -/
def seqRun (s : SeqState) : List SeqEvent → SeqState × List SeqEffect
  | [] => (s, [])
  | e :: es =>
    let r := seqStep s e
    let r2 := seqRun r.1 es
    (r2.1, r.2 ++ r2.2)

/-- The state of a freshly mounted form: no operations, no timers,
nothing in flight. -/
def initSeqState (projPath : String) : SeqState :=
  { opId := 0
    lastValidOpId := none
    validatedSnapshot := none
    validationTimer := none
    previewTimer := none
    saveTimer := none
    inflight := []
    lastSuccessfulOpId := none
    lastSuccessfulSnapshot := none
    displayedPdf := none
    previewStatus := .idle
    previewError := none
    isPreviewStale := false
    isGenerating := false
    shareTotal := .num 0
    shareError := none
    latestValues := FALLBACK_FORM_VALUES
    currentProjectPath := projPath }

/-- A snapshot passes validation when `computeShareMetrics` reports no
error. -/
def SnapOk (f : FormAgreementValues) : Prop := (computeShareMetrics f).error = none

/-- A pending timer task carries a validated snapshot. -/
def TaskOk : Option TimerTask → Prop
  | none => True
  | some t => SnapOk t.snap

/-- The sequencer invariant: every pending preview/save task, the
validated and last-successful snapshots, and every in-flight compile
carry snapshots that passed validation. -/
def SeqInv (s : SeqState) : Prop :=
  TaskOk s.previewTimer ∧ TaskOk s.saveTimer ∧
  (∀ f, s.validatedSnapshot = some f → SnapOk f) ∧
  (∀ f, s.lastSuccessfulSnapshot = some f → SnapOk f) ∧
  (∀ e ∈ s.inflight, SnapOk e.snap)

/-- An effect is validated when any snapshot it saves or compiles passed
validation. -/
def EffectValidated : SeqEffect → Prop
  | .saveData snap _ _ => SnapOk snap
  | .startCompile snap _ _ => SnapOk snap
  | .displayPdf _ => True

/-! ## Concrete inputs used by scenario theorems and witnesses -/

/-- An environment in which the compiler exits 0 and produces the PDF
but the rename to the desired name fails. -/
def compileEnvRenameFail : CompileEnv :=
  { templateFileExists := true
    execError := none
    errMsg := "EACCES"
    generatedPdfExists := true
    renameSucceeds := false }

/-- An environment in which the compiler exits 12 (warnings) with the
PDF produced. -/
def compileEnvWarn : CompileEnv :=
  { templateFileExists := true
    execError := some (.intCode 12)
    errMsg := "latexmk warnings"
    generatedPdfExists := true
    renameSucceeds := true }

/-- The spec's final-mode scenario: release title "Night Drive", main
artist "Nova", ISO release date "2025-03-01". -/
def nightDriveData : AgreementDefaults :=
  { releaseTitle := some "Night Drive"
    mainArtists := some ["Nova"]
    releaseDate := some "March 1, 2025"
    releaseDateISO := some "2025-03-01" }

/-- An in-flight compile stamped with operation id 1. -/
def staleEntry : InflightCompile := ⟨FALLBACK_FORM_VALUES, 1, .preview, "proj"⟩

/-- A sequencer state in which operation id 2 has become current while
the compile stamped 1 is still in flight. -/
def staleState : SeqState :=
  { initSeqState "proj" with opId := 2, inflight := [staleEntry] }

/-- Agreement data whose string fields are empty and whose numeric
fields are the legitimate value `0`. -/
def emptyConfigData : AgreementDefaults :=
  { labelName := some ""
    releaseTitle := some ""
    distroFee := some (.num 0)
    adaFee := some (.num 0)
    labelShare := some (.num 0) }

/-- A legacy artist entry with a "Main Artist" role. -/
def legacyMainEntry : LegacyArtistEntry :=
  { stageName := some "Leg", role := some "Main Artist" }

/-- Base configuration defaults that already carry a main-artist name. -/
def mergeBase6 : AgreementDefaults :=
  { mainArtists := some ["Existing"] }

/-- A user override carrying only the legacy artist list. -/
def mergeOvr6 : AgreementDefaults :=
  { artists := some [legacyMainEntry] }

/-- A form with a valid release date but no mirrored ISO string: the
round trip recomputes `releaseDateISO` and so does not return this value
unchanged. -/
def roundtripCx : FormAgreementValues :=
  { FALLBACK_FORM_VALUES with
    releaseDate := some ⟨2025, 1, 5⟩
    releaseDateISO := none }

/-- A coherent form: valid release date, mirrored ISO string, and all
array fields present. -/
def roundtripOk : FormAgreementValues :=
  { FALLBACK_FORM_VALUES with
    releaseDate := some ⟨2025, 1, 5⟩
    releaseDateISO := some "2025-01-05" }

/-- Label share 60 with one royalty party holding share 30 (spec scenario:
total 90, error). -/
def formLabel60Share30 : FormAgreementValues :=
  { FALLBACK_FORM_VALUES with royaltyParties := some [{ royaltyShare := some (.num 30) }] }

/-- Label share 60 with one royalty party holding share 40 (spec scenario:
total 100, no error). -/
def formLabel60Share40 : FormAgreementValues :=
  { FALLBACK_FORM_VALUES with royaltyParties := some [{ royaltyShare := some (.num 40) }] }

/-- A form whose label share coerces to `NaN` (for example, a persisted
non-numeric string) with no royalty parties. -/
def formLabelNaN : FormAgreementValues :=
  { FALLBACK_FORM_VALUES with labelShare := some .nan, royaltyParties := some [] }

/-! ## Theorems -/

/-! ### Number-rendering helper lemmas -/

theorem fracDigitsAux_zero (fuel : Nat) : fracDigitsAux fuel 0 = "" := by
  cases fuel <;> simp [fracDigitsAux]

theorem ratToString_natCast (n : Nat) : ratToString (n : ℚ) = toString n := by
  unfold ratToString
  have h0 : ¬ ((n : ℚ) < 0) := not_lt.mpr (by exact_mod_cast Nat.zero_le n)
  have h1 : |(n : ℚ)| = (n : ℚ) := abs_of_nonneg (by exact_mod_cast Nat.zero_le n)
  have h2 : ⌊(n : ℚ)⌋ = (n : ℤ) := by exact_mod_cast Int.floor_natCast n
  simp [h0, h1, h2, fracDigitsAux_zero]

theorem ratToString_ninety : ratToString (90 : ℚ) = "90" := by
  have := ratToString_natCast 90
  norm_num at this
  simpa using this

/-! ### Share-metric evaluation lemmas -/

theorem metrics_label60_30 : computeShareMetrics formLabel60Share30 =
    ⟨.num 90, some "Total royalty allocation must equal 100%. Currently 90%"⟩ := by
  simp only [computeShareMetrics, formLabel60Share30, FALLBACK_FORM_VALUES, partyScan,
    coerceShare, List.foldl, jsAdd, jsToFixed2, jsGtAbsDiff, jsNumToString, Option.getD]
  norm_num [ratToString_ninety]
  rfl

theorem metrics_label60_40 : computeShareMetrics formLabel60Share40 = ⟨.num 100, none⟩ := by
  simp only [computeShareMetrics, formLabel60Share40, FALLBACK_FORM_VALUES, partyScan,
    coerceShare, List.foldl, jsAdd, jsToFixed2, jsGtAbsDiff, Option.getD]
  norm_num

/-- The `toFixed(2)`-rounded total passes the `> 0.01` test exactly when
the raw total lies in the half-open interval `[99.985, 100.015)`. -/
theorem jsToFixed2_within_iff (s : ℚ) :
    jsGtAbsDiff (jsToFixed2 (.num s)) 100 (1 / 100) = false ↔
      ((99985 : ℚ) / 1000 ≤ s ∧ s < (100015 : ℚ) / 1000) := by
  have hfloor : ((9999 : ℤ) ≤ ⌊s * 100 + 1 / 2⌋ ↔ ((9999 : ℤ) : ℚ) ≤ s * 100 + 1 / 2) :=
    Int.le_floor
  have hlt : (⌊s * 100 + 1 / 2⌋ < (10002 : ℤ) ↔ s * 100 + 1 / 2 < ((10002 : ℤ) : ℚ)) :=
    Int.floor_lt
  simp only [jsToFixed2, jsGtAbsDiff, decide_eq_false_iff_not, not_lt, abs_le]
  constructor
  · rintro ⟨h1, h2⟩
    have l1 : (9999 : ℤ) ≤ ⌊s * 100 + 1 / 2⌋ := by
      have : ((9999 : ℤ) : ℚ) ≤ (⌊s * 100 + 1 / 2⌋ : ℚ) := by push_cast; linarith
      exact_mod_cast this
    have l2 : ⌊s * 100 + 1 / 2⌋ < (10002 : ℤ) := by
      have : ((⌊s * 100 + 1 / 2⌋ : ℚ)) < ((10002 : ℤ) : ℚ) := by push_cast; linarith
      exact_mod_cast this
    have g1 := hfloor.mp l1
    have g2 := hlt.mp l2
    push_cast at g1 g2
    constructor <;> linarith
  · rintro ⟨h1, h2⟩
    have g1 : (9999 : ℤ) ≤ ⌊s * 100 + 1 / 2⌋ := hfloor.mpr (by push_cast; linarith)
    have g2 : ⌊s * 100 + 1 / 2⌋ < (10002 : ℤ) := hlt.mpr (by push_cast; linarith)
    have c1 : ((9999 : ℤ) : ℚ) ≤ (⌊s * 100 + 1 / 2⌋ : ℚ) := by exact_mod_cast g1
    have c2 : (⌊s * 100 + 1 / 2⌋ : ℚ) ≤ ((10001 : ℤ) : ℚ) := by
      exact_mod_cast Int.lt_add_one_iff.mp g2
    push_cast at c1 c2
    constructor <;> linarith

/-! ### Date and reconciler helper lemmas -/

theorem digitChar_lt_spec :
    ∀ k, k < 10 → (isDigitCh (digitChar k) = true ∧ digitVal (digitChar k) = k ∧
      isJsSpace (digitChar k) = false) := by decide

theorem digitChar_spec (n : Nat) :
    isDigitCh (digitChar n) = true ∧ digitVal (digitChar n) = n % 10 ∧
      isJsSpace (digitChar n) = false := by
  have h : n % 10 < 10 := Nat.mod_lt _ (by norm_num)
  have e : digitChar n = digitChar (n % 10) := by
    unfold digitChar
    congr 1
    omega
  rw [e]
  exact digitChar_lt_spec (n % 10) h

theorem parseIsoChars_formatYMD (dt : DayjsDate) (h : isRealDate dt) :
    parseIsoChars (formatYMD dt).data = some dt := by
  obtain ⟨y, m, d⟩ := dt
  simp only [isRealDate, daysInMonth] at h
  obtain ⟨hm1, hm2, hd1, hd2, hy⟩ := h
  simp only [formatYMD, pad4, pad2, List.cons_append, List.nil_append]
  simp only [parseIsoChars, List.all_cons, List.all_nil,
    (digitChar_spec _).1, Bool.and_true, Bool.true_and, and_true, true_and]
  rw [if_pos (by trivial)]
  simp only [(digitChar_spec _).2.1]
  have h31 : (if m = 2 then if leapYear y = true then 29 else 28
      else if m = 4 ∨ m = 6 ∨ m = 9 ∨ m = 11 then 30 else 31) ≤ 31 := by
    split
    · split <;> norm_num
    · split <;> norm_num
  have hd31 : d ≤ 31 := le_trans hd2 h31
  have em : 10 * (m / 10 % 10) + m % 10 = m := by omega
  have ed : 10 * (d / 10 % 10) + d % 10 = d := by omega
  have ey : 1000 * (y / 1000 % 10) + 100 * (y / 100 % 10) + 10 * (y / 10 % 10) + y % 10 = y := by
    omega
  rw [em, ed, ey]
  rw [if_pos]
  refine ⟨hm1, hm2, hd1, ?_⟩
  simp only [daysInMonth]
  exact hd2

theorem trimChars_formatYMD (dt : DayjsDate) :
    trimChars (formatYMD dt).data = (formatYMD dt).data := by
  obtain ⟨y, m, d⟩ := dt
  simp only [formatYMD, pad4, pad2, List.cons_append, List.nil_append, trimChars,
    List.dropWhile, (digitChar_spec _).2.2]
  simp [List.reverse_cons, (digitChar_spec _).2.2, isJsSpace]

theorem parseDate_formatYMD (dt : DayjsDate) (h : isRealDate dt) :
    parseDate (some (formatYMD dt)) = some dt := by
  simp only [parseDate, jsTrim, trimChars_formatYMD]
  rw [if_neg, parseIsoChars_formatYMD dt h]
  obtain ⟨y, m, d⟩ := dt
  simp [formatYMD, pad4, pad2]

theorem oOr_self {α : Type} (a : Option α) : oOr a a = a := by
  cases a <;> rfl

/-! ### Claim C2 -/

/-- Claim C2 fails as stated: with a label share coercing to `NaN` and no
royalty parties, every royalty party's share is (vacuously) finite and
the raw total is not within 0.01 of 100, so the claim requires an error;
but `NaN.toFixed(2)` re-parses to `NaN` and `Math.abs(NaN - 100) > 0.01`
is false, so `computeShareMetrics` reports no error. -/
theorem computeShareMetrics_claim_counterexample :
    (computeShareMetrics formLabelNaN).error = none ∧
    claimRawTotalOk formLabelNaN = false ∧
    ¬ (((computeShareMetrics formLabelNaN).error = none) ↔
        claimRawTotalOk formLabelNaN = true) := by
  refine ⟨rfl, rfl, ?_⟩
  intro h
  have h1 := h.mp rfl
  have h2 : claimRawTotalOk formLabelNaN = false := rfl
  rw [h2] at h1
  exact absurd h1 (by simp)

/-- Claim C2 (amended): `computeShareMetrics` returns no error iff every
royalty party's `royaltyShare` coerces to a finite number and the total —
label share plus the sum of the finite party shares, rounded to two
decimals by `toFixed(2)` — does not differ from 100 by more than 0.01
under JavaScript comparison (false for a `NaN` total, so a `NaN` label
share yields no error); equivalently, for finite totals, iff the raw
total lies in `[99.985, 100.015)`.  The share-mismatch error names the
rounded total and the non-numeric-share error is a fixed message; label
share 60 with one party share 30 yields exactly the error
"Total royalty allocation must equal 100%. Currently 90%", and with
party share 40 yields no error. -/
theorem computeShareMetrics_spec :
    (∀ v : FormAgreementValues,
      ((computeShareMetrics v).error = none ↔
        (partyScan (v.royaltyParties.getD [])).2 = false ∧
        jsGtAbsDiff (jsToFixed2 (jsAdd (coerceShare v.labelShare)
          (.num (partyScan (v.royaltyParties.getD [])).1))) 100 (1 / 100) = false) ∧
      ((partyScan (v.royaltyParties.getD [])).2 = true →
        (computeShareMetrics v).error =
          some "Enter numeric royalty shares for all parties.") ∧
      ((partyScan (v.royaltyParties.getD [])).2 = false →
        jsGtAbsDiff (jsToFixed2 (jsAdd (coerceShare v.labelShare)
          (.num (partyScan (v.royaltyParties.getD [])).1))) 100 (1 / 100) = true →
        (computeShareMetrics v).error =
          some ("Total royalty allocation must equal 100%. Currently "
            ++ jsNumToString (computeShareMetrics v).total ++ "%"))) ∧
    (∀ s : ℚ, jsGtAbsDiff (jsToFixed2 (.num s)) 100 (1 / 100) = false ↔
      ((99985 : ℚ) / 1000 ≤ s ∧ s < (100015 : ℚ) / 1000)) ∧
    computeShareMetrics formLabel60Share30 =
      ⟨.num 90, some "Total royalty allocation must equal 100%. Currently 90%"⟩ ∧
    computeShareMetrics formLabel60Share40 = ⟨.num 100, none⟩ := by
  refine ⟨fun v => ?_, jsToFixed2_within_iff, metrics_label60_30, metrics_label60_40⟩
  cases h1 : (partyScan (v.royaltyParties.getD [])).2 with
  | true =>
    simp only [computeShareMetrics]
    rw [h1]
    simp
  | false =>
    cases h2 : jsGtAbsDiff (jsToFixed2 (jsAdd (coerceShare v.labelShare)
        (.num (partyScan (v.royaltyParties.getD [])).1))) 100 (1 / 100) with
    | true =>
      simp only [computeShareMetrics]
      rw [h1, h2]
      simp
    | false =>
      simp only [computeShareMetrics]
      rw [h1, h2]
      simp

theorem computeShareMetrics_spec_witness :
    (computeShareMetrics formLabel60Share30).error =
      some ("Total royalty allocation must equal 100%. Currently "
        ++ jsNumToString (computeShareMetrics formLabel60Share30).total ++ "%") ∧
    jsGtAbsDiff (jsToFixed2 (.num 100)) 100 (1 / 100) = false := by
  constructor
  · exact (computeShareMetrics_spec.1 formLabel60Share30).2.2
      (by rfl)
      (by simp only [formLabel60Share30, FALLBACK_FORM_VALUES, partyScan, coerceShare,
            List.foldl, jsAdd, jsToFixed2, jsGtAbsDiff, Option.getD]
          norm_num)
  · exact (computeShareMetrics_spec.2.1 100).mpr (by norm_num)

theorem escapeChar_cases (c : Char) :
    (c ∉ latexSpecials ∧ escapeChar c = [c]) ∨ escapeChar c ∈ escapeTokens := by
  by_cases h : c ∈ latexSpecials
  · right
    simp only [latexSpecials, List.mem_cons, List.not_mem_nil, or_false] at h
    rcases h with rfl | rfl | rfl | rfl | rfl | rfl | rfl | rfl | rfl | rfl <;> decide
  · left
    refine ⟨h, ?_⟩
    simp only [latexSpecials, List.mem_cons, List.not_mem_nil, or_false, not_or] at h
    obtain ⟨h1, h2, h3, h4, h5, h6, h7, h8, h9, h10⟩ := h
    simp [escapeChar, h1, h2, h3, h4, h5, h6, h7, h8, h9, h10]

theorem sanitizeList_safe (l : List Char) : LatexSafe (sanitizeList l) := by
  induction l with
  | nil => exact LatexSafe.nil
  | cons c rest ih =>
    show LatexSafe (escapeChar c ++ sanitizeList rest)
    rcases escapeChar_cases c with ⟨hc, he⟩ | ht
    · rw [he]
      exact LatexSafe.plain c _ hc ih
    · exact LatexSafe.tok _ _ ht ih

theorem sanitizeList_append (a b : List Char) :
    sanitizeList (a ++ b) = sanitizeList a ++ sanitizeList b := by
  simp [sanitizeList]

/-! ### Claim C7 -/

/-- Claim C7 fails as stated: for a form whose release date is the valid
date 2025-01-05 but whose `releaseDateISO` mirror is absent, the round
trip recomputes `releaseDateISO` from the date object, so the result
differs from the input on that persisted scalar field. -/
theorem roundtrip_claim_counterexample :
    roundtripCx.releaseDate = some ⟨2025, 1, 5⟩ ∧
    isRealDate ⟨2025, 1, 5⟩ ∧
    roundtripCx.releaseDateISO = none ∧
    (toFormValues (some (toPersisted roundtripCx)) roundtripCx).releaseDateISO =
      some "2025-01-05" ∧
    toFormValues (some (toPersisted roundtripCx)) roundtripCx ≠ roundtripCx := by
  refine ⟨rfl, by decide, rfl, rfl, ?_⟩
  intro h
  have h2 := congrArg FormAgreementValues.releaseDateISO h
  have h3 : (toFormValues (some (toPersisted roundtripCx)) roundtripCx).releaseDateISO =
      some "2025-01-05" := rfl
  rw [h3] at h2
  simp [roundtripCx, FALLBACK_FORM_VALUES] at h2

/-- Claim C7 (amended): for every form value `x` whose `releaseDate` is a
valid date, whose array fields (main artists, featured artists,
licensors, royalty parties) are present, and whose `releaseDateISO`
already mirrors the ISO form of `releaseDate`, the round trip
`toFormValues (toPersisted x) x` returns `x` exactly: all scalar fields,
the party and artist lists, and both date fields are preserved.  (When
`releaseDateISO` is stale or the array fields absent, the round trip
instead recomputes `releaseDateISO` and normalizes absent arrays to
empty ones; aliasing of arrays is not observable in this value model.) -/
theorem roundtrip_spec (x : FormAgreementValues) (dt : DayjsDate)
    (hdate : x.releaseDate = some dt) (hreal : isRealDate dt)
    (hiso : x.releaseDateISO = some (formatYMD dt))
    (hma : x.mainArtists.isSome = true) (hfa : x.featuredArtists.isSome = true)
    (hli : x.licensors.isSome = true) (hrp : x.royaltyParties.isSome = true) :
    toFormValues (some (toPersisted x)) x = x := by
  obtain ⟨ma, hma'⟩ := Option.isSome_iff_exists.mp hma
  obtain ⟨fa, hfa'⟩ := Option.isSome_iff_exists.mp hfa
  obtain ⟨li, hli'⟩ := Option.isSome_iff_exists.mp hli
  obtain ⟨rp, hrp'⟩ := Option.isSome_iff_exists.mp hrp
  obtain ⟨a1, a2, a3, a4, a5, a6, a7, a8, a9, a10, a11, a12,
    a13, a14, a15, a16, a17, a18, a19⟩ := x
  simp only at hdate hiso hma' hfa' hli' hrp'
  subst hdate hiso hma' hfa' hli' hrp'
  simp only [toFormValues, toPersisted, Option.getD_some]
  simp only [oOr_self, parseDate_formatYMD dt hreal]
  simp only [oOr]

theorem roundtrip_spec_witness :
    toFormValues (some (toPersisted roundtripOk)) roundtripOk = roundtripOk :=
  roundtrip_spec roundtripOk ⟨2025, 1, 5⟩ rfl (by decide) rfl rfl rfl rfl rfl

/-! ### Claim C3 -/

/-- Claim C3: `sanitize` maps null/undefined to the empty string and any
string to its form with each of the ten special characters
`& % $ # _ { } ~ ^ \` replaced by its LaTeX escape (the homomorphism
equations together with the per-character equations determine the
function); consequently the output is `LatexSafe` — it contains no
occurrence of a special character outside a sanctioned escape
sequence. -/
theorem sanitize_spec :
    sanitize none = "" ∧
    (∀ s : String, LatexSafe (sanitize (some s)).data) ∧
    (∀ a b : List Char, sanitizeList (a ++ b) = sanitizeList a ++ sanitizeList b) ∧
    sanitizeList ['&'] = ['\\', '&'] ∧
    sanitizeList ['%'] = ['\\', '%'] ∧
    sanitizeList ['$'] = ['\\', '$'] ∧
    sanitizeList ['#'] = ['\\', '#'] ∧
    sanitizeList ['_'] = ['\\', '_'] ∧
    sanitizeList ['{'] = ['\\', '{'] ∧
    sanitizeList ['}'] = ['\\', '}'] ∧
    sanitizeList ['~'] = "\\textasciitilde\x7b\x7d".data ∧
    sanitizeList ['^'] = "\\textasciicircum\x7b\x7d".data ∧
    sanitizeList ['\\'] = "\\textbackslash\x7b\x7d".data ∧
    (∀ c : Char, c ∉ latexSpecials → sanitizeList [c] = [c]) := by
  refine ⟨rfl, fun s => sanitizeList_safe s.data, sanitizeList_append,
    by decide, by decide, by decide, by decide, by decide, by decide, by decide,
    by decide, by decide, by decide, ?_⟩
  intro c hc
  simp only [latexSpecials, List.mem_cons, List.not_mem_nil, or_false, not_or] at hc
  obtain ⟨h1, h2, h3, h4, h5, h6, h7, h8, h9, h10⟩ := hc
  simp [sanitizeList, escapeChar, h1, h2, h3, h4, h5, h6, h7, h8, h9, h10]

theorem sanitize_spec_witness : sanitizeList ['a'] = ['a'] := by
  obtain ⟨-, -, -, -, -, -, -, -, -, -, -, -, -, h⟩ := sanitize_spec
  exact h 'a' (by decide)

/-! ### Claim C10 -/

/-- Claim C10: `generateConfig` renders every falsy scalar field as its
bracketed placeholder (for example an empty `labelName` as
"[Label Name]" and an empty `releaseTitle` as "[Release Title]"), and
renders the numeric fields `distroFee`, `adaFee` and `labelShare` as
"--" whenever falsy — in particular a legitimate value of `0` is written
to the generated file as "--" rather than `0`. -/
theorem generateConfig_placeholder_spec :
    (∀ d : AgreementDefaults,
      ((d.labelName = none ∨ d.labelName = some "") →
        scalarToken d.labelName "[Label Name]" = "[Label Name]") ∧
      ((d.releaseTitle = none ∨ d.releaseTitle = some "") →
        scalarToken d.releaseTitle "[Release Title]" = "[Release Title]") ∧
      ((d.distroFee = none ∨ d.distroFee = some (.num 0) ∨ d.distroFee = some .nan) →
        numToken d.distroFee "--" = "--") ∧
      ((d.adaFee = none ∨ d.adaFee = some (.num 0) ∨ d.adaFee = some .nan) →
        numToken d.adaFee "--" = "--") ∧
      ((d.labelShare = none ∨ d.labelShare = some (.num 0) ∨ d.labelShare = some .nan) →
        numToken d.labelShare "--" = "--")) ∧
    generateConfigLines emptyConfigData =
      [configLine "labelName" "[Label Name]",
       configLine "labelLegalName" "[Label Legal Name]",
       configLine "labelAddress" "[Label Address]",
       configLine "labelEmail" "[Label Email]",
       configLine "labelSignatory" "[Authorised Signatory]",
       configLine "distroPartner" "[Distribution Partner]",
       configLine "distroFee" "--",
       configLine "adaFee" "--",
       configLine "labelShare" "--",
       configLine "releaseTitle" "[Release Title]",
       configLine "releaseDate" "[Release Date]",
       configLine "releaseUPC" "[UPC]",
       configLine "releaseISRC" "[ISRC]"] := by
  constructor
  · intro d
    refine ⟨?_, ?_, ?_, ?_, ?_⟩ <;>
      [rintro (h | h); rintro (h | h); rintro (h | h | h); rintro (h | h | h);
        rintro (h | h | h)] <;>
      simp [scalarToken, numToken, jsOrStr, jsOrNum, h] <;> decide
  · simp only [generateConfigLines, emptyConfigData, scalarToken, numToken, jsOrStr, jsOrNum]
    norm_num
    decide

theorem generateConfig_placeholder_spec_witness :
    numToken emptyConfigData.distroFee "--" = "--" := by
  have h := (generateConfig_placeholder_spec.1 emptyConfigData).2.2.1
  exact h (Or.inr (Or.inl rfl))

/-! ### Claim C6 -/

theorem legacyMainFeatured_spec (l : List LegacyArtistEntry) :
    (legacyMainFeatured l).1 = (l.filter isMainRole).filterMap trimmedStage ∧
    (legacyMainFeatured l).2 =
      (l.filter (fun ar => !isMainRole ar && isFeaturedRole ar)).filterMap trimmedStage := by
  induction l with
  | nil => exact ⟨rfl, rfl⟩
  | cons ar rest ih =>
    obtain ⟨ih1, ih2⟩ := ih
    cases hts : trimmedStage ar <;> cases hmr : isMainRole ar <;> cases hfr : isFeaturedRole ar <;>
      simp [legacyMainFeatured, List.filter_cons, List.filterMap_cons, hts, hmr, hfr, ih1, ih2]

/-- Claim C6 fails as stated: when the merged result already carries a
non-empty `mainArtists` list (here from the base configuration), the
merger keeps it instead of replacing it with the names derived from the
legacy list, even though the legacy list is non-empty and neither
`licensors` nor `royaltyParties` has entries. -/
theorem merge_legacy_claim_counterexample :
    (mergeFields mergeBase6 mergeOvr6).artists = some [legacyMainEntry] ∧
    hasEntries (mergeFields mergeBase6 mergeOvr6).licensors = false ∧
    hasEntries (mergeFields mergeBase6 mergeOvr6).royaltyParties = false ∧
    (deriveFromLegacyArtists [legacyMainEntry]).mainArtists = ["Leg"] ∧
    (mergeAgreementDefaults mergeBase6 (some mergeOvr6)).mainArtists = some ["Existing"] ∧
    (mergeAgreementDefaults mergeBase6 (some mergeOvr6)).mainArtists ≠
      some (deriveFromLegacyArtists [legacyMainEntry]).mainArtists := by
  refine ⟨rfl, rfl, rfl, by decide, by decide, by decide⟩

/-- Claim C6 (amended): when the merged result's legacy `artists` list is
non-empty and neither `licensors` nor `royaltyParties` has entries, the
merger sets `licensors` and `royaltyParties` to the stated projections of
the legacy list, and sets `mainArtists` / `featuredArtists` — only when
previously empty, otherwise they are kept — to the non-empty trimmed
stage names of legacy entries whose role text contains "main"
(case-insensitive), respectively whose role does not contain "main" but
contains "featured". -/
theorem mergeAgreementDefaults_legacy_spec (base ovr : AgreementDefaults)
    (l : List LegacyArtistEntry)
    (hart : (mergeFields base ovr).artists = some l) (hne : l ≠ [])
    (hlic : hasEntries (mergeFields base ovr).licensors = false)
    (hroy : hasEntries (mergeFields base ovr).royaltyParties = false) :
    (mergeAgreementDefaults base (some ovr)).licensors =
      some (l.map (fun ar =>
        { stageName := some (ar.stageName.getD "")
          legalName := some (ar.legalName.getD "")
          address := some (ar.address.getD "")
          email := some (ar.email.getD "") : LicensorEntry })) ∧
    (mergeAgreementDefaults base (some ovr)).royaltyParties =
      some (l.map (fun ar =>
        { displayName := some (ar.stageName.getD "")
          legalName := some (ar.legalName.getD "")
          role := some (ar.role.getD "Artist")
          royaltyShare := ar.royaltyShare
          email := some (ar.email.getD "") : RoyaltyPartyEntry })) ∧
    (mergeAgreementDefaults base (some ovr)).mainArtists =
      (if hasEntries (mergeFields base ovr).mainArtists then (mergeFields base ovr).mainArtists
       else some ((l.filter isMainRole).filterMap trimmedStage)) ∧
    (mergeAgreementDefaults base (some ovr)).featuredArtists =
      (if hasEntries (mergeFields base ovr).featuredArtists
       then (mergeFields base ovr).featuredArtists
       else some ((l.filter (fun ar => !isMainRole ar && isFeaturedRole ar)).filterMap
         trimmedStage)) := by
  obtain ⟨a, rest, rfl⟩ : ∃ a rest, l = a :: rest := by
    cases l with
    | nil => exact absurd rfl hne
    | cons a rest => exact ⟨a, rest, rfl⟩
  have hm := (legacyMainFeatured_spec (a :: rest)).1
  have hf := (legacyMainFeatured_spec (a :: rest)).2
  simp only [mergeAgreementDefaults]
  rw [hart]
  rw [hlic, hroy]
  simp only [Bool.false_or, Bool.or_false, if_false, Bool.false_eq_true]
  simp only [deriveFromLegacyArtists, hm, hf, hlic, hroy]
  simp

theorem mergeAgreementDefaults_legacy_spec_witness :
    (mergeAgreementDefaults mergeBase6 (some mergeOvr6)).licensors =
      some [{ stageName := some "Leg", legalName := some "", address := some "",
              email := some "" }] ∧
    (mergeAgreementDefaults mergeBase6 (some mergeOvr6)).mainArtists = some ["Existing"] := by
  have h := mergeAgreementDefaults_legacy_spec mergeBase6 mergeOvr6 [legacyMainEntry]
    rfl (by decide) rfl rfl
  exact ⟨h.1.trans (by decide), h.2.2.1.trans (by decide)⟩

/-! ### Claim C8 -/

theorem collapseSpacesAux_true_allspace :
    ∀ l : List Char, (∀ c ∈ l, c = ' ') → collapseSpacesAux true l = [] := by
  intro l
  induction l with
  | nil => intro _; rfl
  | cons c rest ih =>
    intro h
    have hc := h c (List.mem_cons_self c rest)
    have hr := ih (fun d hd => h d (List.mem_cons_of_mem c hd))
    simp [collapseSpacesAux, hc, hr]

theorem normalizeCompact_allnonalnum (l : List Char)
    (h : ∀ c ∈ l, jsIsAlnum c = false) : normalizeCompact l = [] := by
  have hsq : ∀ c ∈ squashToSpaces l, c = ' ' := by
    intro c hc
    simp only [squashToSpaces, List.mem_map] at hc
    obtain ⟨a, ha, rfl⟩ := hc
    simp [h a ha]
  unfold normalizeCompact
  cases hs : squashToSpaces l with
  | nil => rfl
  | cons c rest =>
    have hc : c = ' ' := hsq c (by rw [hs]; exact List.mem_cons_self c rest)
    have hr : collapseSpacesAux true rest = [] :=
      collapseSpacesAux_true_allspace rest
        (fun d hd => hsq d (by rw [hs]; exact List.mem_cons_of_mem c hd))
    simp [collapseSpacesAux, hc, hr]
    decide

/-- Claim C8: final-mode filename derivation.  The Night Drive / Nova /
2025-03-01 scenario produces exactly "NightDrive_Nova_2025-03-01", and
for every input, a missing title or a title with no alphanumeric content
(on the ASCII fragment where the model is exact) falls back to
"Release", a missing or empty main-artist list to "UnknownArtist", and
an empty or unparseable date to "DateUnknown". -/
theorem buildPdfBaseName_spec :
    buildPdfBaseName nightDriveData = "NightDrive_Nova_2025-03-01" ∧
    (∀ d : AgreementDefaults, d.releaseTitle = none → titleTokenOf d = "Release") ∧
    (∀ s : String, (∀ c ∈ s.data, c.toNat < 128 ∧ jsIsAlnum c = false) →
      ∀ fb, compactToken (some s) fb = fb) ∧
    (∀ d : AgreementDefaults, (d.mainArtists = none ∨ d.mainArtists = some []) →
      artistsTokenOf d = "UnknownArtist") ∧
    (∀ d : AgreementDefaults, rawDateOf d = "" → dateTokenOf d = "DateUnknown") ∧
    (∀ d : AgreementDefaults, matchesIsoDate (rawDateOf d).data = false →
      parseIsoChars (rawDateOf d).data = none → dateTokenOf d = "DateUnknown") := by
  refine ⟨by decide, ?_, ?_, ?_, ?_, ?_⟩
  · intro d h
    simp [titleTokenOf, compactToken, h]
  · intro s h fb
    have := normalizeCompact_allnonalnum s.data (fun c hc => (h c hc).2)
    simp [compactToken, this]
  · intro d h
    rcases h with h | h <;> simp [artistsTokenOf, h]
  · intro d h
    simp [dateTokenOf, h]
    decide
  · intro d h1 h2
    simp only [dateTokenOf]
    rw [h1]
    simp only [Bool.false_eq_true, if_false]
    by_cases he : (rawDateOf d).data.isEmpty
    · simp [he]
    · simp [he, h2]

theorem buildPdfBaseName_spec_witness :
    compactToken (some "!!!") "Release" = "Release" ∧
    titleTokenOf {} = "Release" ∧
    artistsTokenOf {} = "UnknownArtist" ∧
    dateTokenOf {} = "DateUnknown" := by
  obtain ⟨-, h2, h3, h4, h5, -⟩ := buildPdfBaseName_spec
  exact ⟨h3 "!!!" (by decide) "Release", h2 {} rfl, h4 {} (Or.inl rfl), h5 {} rfl⟩

/-! ### Claim C5 -/

/-- Claim C5 fails as stated: with the compiler exiting 0 and the output
PDF present — the claim's condition for resolving — a failing rename to
a desired base name different from the compiler's fixed output name
rejects the promise instead. -/
theorem compilePdf_claim_counterexample :
    compileEnvRenameFail.execError = none ∧
    compileEnvRenameFail.generatedPdfExists = true ∧
    compilePdf compileEnvRenameFail "/out" "NightDrive_Nova_2025-03-01" =
      .error "PDF was generated but could not be renamed: EACCES" ∧
    (∀ p, compilePdf compileEnvRenameFail "/out" "NightDrive_Nova_2025-03-01" ≠ .ok p) := by
  have he : compilePdf compileEnvRenameFail "/out" "NightDrive_Nova_2025-03-01" =
      .error "PDF was generated but could not be renamed: EACCES" := by rfl
  refine ⟨rfl, rfl, he, ?_⟩
  intro p h
  rw [he] at h
  exact Except.noConfusion h

/-- Claim C5 (amended): `compilePdf` resolves with the output file's
path exactly when the template exists, the expected output PDF exists,
the compiler exited 0 or with code 12, and — when the desired base name
differs from the compiler's fixed output name — the rename succeeds; the
resolved path is the desired path (or the generated path when no rename
is needed); any other non-zero exit rejects with the captured
diagnostics, and a missing output PDF after a nominal success
rejects. -/
theorem compilePdf_spec (env : CompileEnv) (outputDir pdfBaseName : String) :
    ((∃ p, compilePdf env outputDir pdfBaseName = .ok p) ↔
      (env.templateFileExists = true ∧ env.generatedPdfExists = true ∧
       (env.execError = none ∨
         ∃ raw, env.execError = some raw ∧ numericExitCode raw = some 12) ∧
       (generatedPdfPathOf outputDir ≠ desiredPdfPathOf outputDir pdfBaseName →
         env.renameSucceeds = true))) ∧
    (∀ p, compilePdf env outputDir pdfBaseName = .ok p →
      p = (if generatedPdfPathOf outputDir ≠ desiredPdfPathOf outputDir pdfBaseName
           then desiredPdfPathOf outputDir pdfBaseName
           else generatedPdfPathOf outputDir)) ∧
    (∀ raw, env.templateFileExists = true → env.execError = some raw →
      ¬(numericExitCode raw = some 12 ∧ env.generatedPdfExists = true) →
      compilePdf env outputDir pdfBaseName =
        .error ("PDF compilation failed. See console for details. Error: " ++ env.errMsg)) := by
  obtain ⟨tmpl, exec, msg, pdf, ren⟩ := env
  refine ⟨?_, ?_, ?_⟩
  · cases tmpl with
    | false => simp [compilePdf]
    | true =>
      cases exec with
      | none =>
        cases pdf with
        | false => simp [compilePdf, compilePdfFinish]
        | true =>
          by_cases hp : generatedPdfPathOf outputDir = desiredPdfPathOf outputDir pdfBaseName
          · simp [compilePdf, compilePdfFinish, hp]
          · cases ren with
            | false => simp [compilePdf, compilePdfFinish, hp]
            | true => simp [compilePdf, compilePdfFinish, hp]
      | some raw =>
        by_cases h12 : numericExitCode raw = some 12
        · cases pdf with
          | false => simp [compilePdf, compilePdfFinish, h12]
          | true =>
            by_cases hp : generatedPdfPathOf outputDir = desiredPdfPathOf outputDir pdfBaseName
            · simp [compilePdf, compilePdfFinish, h12, hp]
            · cases ren with
              | false => simp [compilePdf, compilePdfFinish, h12, hp]
              | true => simp [compilePdf, compilePdfFinish, h12, hp]
        · simp [compilePdf, compilePdfFinish, h12]
  · intro p hp
    cases tmpl with
    | false => simp [compilePdf] at hp
    | true =>
      cases exec with
      | none =>
        cases pdf with
        | false => simp [compilePdf, compilePdfFinish] at hp
        | true =>
          by_cases hq : generatedPdfPathOf outputDir = desiredPdfPathOf outputDir pdfBaseName
          · simp [compilePdf, compilePdfFinish, hq] at hp
            simp [hq, hp.symm]
          · cases ren with
            | false => simp [compilePdf, compilePdfFinish, hq] at hp
            | true =>
              simp [compilePdf, compilePdfFinish, hq] at hp
              simp [hq, hp.symm]
      | some raw =>
        by_cases h12 : numericExitCode raw = some 12
        · cases pdf with
          | false => simp [compilePdf, compilePdfFinish, h12] at hp
          | true =>
            by_cases hq : generatedPdfPathOf outputDir = desiredPdfPathOf outputDir pdfBaseName
            · simp [compilePdf, compilePdfFinish, h12, hq] at hp
              simp [hq, hp.symm]
            · cases ren with
              | false => simp [compilePdf, compilePdfFinish, h12, hq] at hp
              | true =>
                simp [compilePdf, compilePdfFinish, h12, hq] at hp
                simp [hq, hp.symm]
        · simp [compilePdf, compilePdfFinish, h12] at hp
  · intro raw htmpl hexec hnot
    subst htmpl
    simp only at hexec
    subst hexec
    simp [compilePdf, hnot]

theorem compilePdf_spec_witness :
    (∃ p, compilePdf compileEnvWarn "/out" "master-agreement-template" = .ok p) ∧
    compilePdf compileEnvRenameFail "/out" "master-agreement-template" =
      .ok (generatedPdfPathOf "/out") := by
  constructor
  · exact (compilePdf_spec compileEnvWarn "/out" "master-agreement-template").1.mpr
      ⟨rfl, rfl, Or.inr ⟨.intCode 12, rfl, by decide⟩, fun h => absurd (by decide) h⟩
  · obtain ⟨p, hp⟩ := (compilePdf_spec compileEnvRenameFail "/out" "master-agreement-template").1.mpr
      ⟨rfl, rfl, Or.inl rfl, fun h => absurd (by decide) h⟩
    have hif := (compilePdf_spec compileEnvRenameFail "/out" "master-agreement-template").2.1 p hp
    have heq : generatedPdfPathOf "/out" = desiredPdfPathOf "/out" "master-agreement-template" := by
      decide
    rw [if_neg (not_not_intro heq)] at hif
    rw [hif] at hp
    exact hp

/-! ### Claim C9 -/

/-- Claim C9: a delete, rename or duplicate request whose target path is
not strictly inside the managed projects root (including the root
itself, which `isWithinDirectory` rejects) returns a failure result and
performs no filesystem mutation — the rejection happens before any
remove, rename or copy. -/
theorem path_containment_spec :
    (∀ root : List String, isWithinDirectory root root = false) ∧
    (∀ fs root p, isWithinDirectory root p = false →
      deleteProjectHandler fs root (some p) = ⟨false, []⟩) ∧
    (∀ fs root cur n, isWithinDirectory root cur = false →
      renameProjectHandler fs root cur n = ⟨false, []⟩) ∧
    (∀ fs root cur n, isWithinDirectory root (root ++ [sanitizeFilename (jsTrim n)]) = false →
      renameProjectHandler fs root cur (some n) = ⟨false, []⟩) ∧
    (∀ fs root src n, isWithinDirectory root src = false →
      duplicateProjectHandler fs root (some src) n = ⟨false, []⟩) := by
  refine ⟨?_, ?_, ?_, ?_, ?_⟩
  · intro root
    simp [isWithinDirectory]
  · intro fs root p h
    simp [deleteProjectHandler, h]
  · intro fs root cur n h
    cases n with
    | none => rfl
    | some n =>
      simp only [renameProjectHandler]
      split
      · rfl
      · split
        · rfl
        · simp [h]
  · intro fs root cur n h
    simp only [renameProjectHandler]
    split
    · rfl
    · simp [h]
  · intro fs root src n h
    cases n with
    | none => rfl
    | some n =>
      simp only [duplicateProjectHandler]
      simp [h]

theorem path_containment_spec_witness :
    isWithinDirectory ["home", "Engeloop_Contracts"] ["home", "Engeloop_Contracts"] = false ∧
    deleteProjectHandler [] ["home", "Engeloop_Contracts"] (some ["etc", "passwd"]) =
      ⟨false, []⟩ ∧
    renameProjectHandler [] ["home", "Engeloop_Contracts"]
      ["home", "Engeloop_Contracts", "..", "p"] (some "x") = ⟨false, []⟩ ∧
    duplicateProjectHandler [] ["home", "Engeloop_Contracts"] (some ["etc"]) (some "x") =
      ⟨false, []⟩ := by
  obtain ⟨h1, h2, h3, -, h5⟩ := path_containment_spec
  exact ⟨h1 _, h2 [] _ _ (by decide), h3 [] _ _ _ (by decide), h5 [] _ _ _ (by decide)⟩

/-! ### Sequencer invariant lemmas -/

theorem oOr_some {α : Type} (a : α) (b : Option α) : oOr (some a) b = some a := rfl

theorem oOr_none {α : Type} (b : Option α) : oOr none b = b := rfl

theorem runAutoSave_fst (s : SeqState) (snap : FormAgreementValues) (op : Nat)
    (p : String) : (runAutoSave s snap op p).1 = s := by
  unfold runAutoSave
  split
  · rfl
  · split <;> rfl

theorem runAutoSave_effects (s : SeqState) (snap : FormAgreementValues) (op : Nat)
    (p : String) (h : SnapOk snap) :
    ∀ e ∈ (runAutoSave s snap op p).2, EffectValidated e := by
  intro e he
  unfold runAutoSave at he
  split at he
  · simp at he
  · split at he
    · simp at he
    · simp at he
      subst he
      exact h

theorem runPdfGenerationStart_inv (s : SeqState) (snap : FormAgreementValues)
    (op : Nat) (mode : PdfMode) (p : String) (hs : SeqInv s) (h : SnapOk snap) :
    SeqInv (runPdfGenerationStart s snap op mode p).1 ∧
    ∀ e ∈ (runPdfGenerationStart s snap op mode p).2, EffectValidated e := by
  unfold runPdfGenerationStart
  split
  · exact ⟨hs, by simp⟩
  · split
    · exact ⟨hs, by simp⟩
    · obtain ⟨h1, h2, h3, h4, h5⟩ := hs
      constructor
      · refine ⟨h1, h2, h3, h4, ?_⟩
        intro e he
        simp only [List.mem_cons] at he
        rcases he with rfl | he
        · exact h
        · exact h5 e he
      · intro e he
        simp at he
        subst he
        exact h

theorem performValidation_inv (s : SeqState) (snap : FormAgreementValues) (op : Nat)
    (hs : SeqInv s) :
    SeqInv (performValidation s snap op).1 ∧
    ∀ e ∈ (performValidation s snap op).2, EffectValidated e := by
  obtain ⟨h1, h2, h3, h4, h5⟩ := hs
  simp only [performValidation]
  split
  · exact ⟨⟨h1, h2, h3, h4, h5⟩, by simp⟩
  · cases hm : (computeShareMetrics snap).error with
    | some msg =>
      simp only [hm]
      refine ⟨⟨trivial, trivial, ?_, h4, h5⟩, by simp⟩
      intro f hf
      simp at hf
    | none =>
      have hok : SnapOk snap := hm
      simp only [hm]
      refine ⟨⟨hok, hok, ?_, h4, h5⟩, by simp⟩
      intro f hf
      simp at hf
      subst hf
      exact hok

theorem runPdfGenerationSettle_inv (s : SeqState) (entry : InflightCompile)
    (res : GenResult) (hs : SeqInv s) :
    SeqInv (runPdfGenerationSettle s entry res).1 ∧
    ∀ e ∈ (runPdfGenerationSettle s entry res).2, EffectValidated e := by
  obtain ⟨h1, h2, h3, h4, h5⟩ := hs
  simp only [runPdfGenerationSettle]
  split
  · next hin =>
    have hrest : ∀ e ∈ s.inflight.erase entry, SnapOk e.snap :=
      fun e he => h5 e (List.mem_of_mem_erase he)
    split
    · exact ⟨⟨h1, h2, h3, h4, hrest⟩, by simp⟩
    · cases res with
      | ok p =>
        refine ⟨⟨h1, h2, h3, ?_, hrest⟩, by simp [EffectValidated]⟩
        intro f hf
        simp at hf
        subst hf
        exact h5 entry hin
      | failed m => exact ⟨⟨h1, h2, h3, h4, hrest⟩, by simp⟩
  · exact ⟨⟨h1, h2, h3, h4, h5⟩, by simp⟩

theorem seqStep_inv (s : SeqState) (ev : SeqEvent) (hs : SeqInv s) :
    SeqInv (seqStep s ev).1 ∧ ∀ e ∈ (seqStep s ev).2, EffectValidated e := by
  obtain ⟨h1, h2, h3, h4, h5⟩ := hs
  cases ev with
  | edit snap => exact ⟨⟨h1, h2, h3, h4, h5⟩, by simp [seqStep]⟩
  | fireValidation =>
    simp only [seqStep]
    cases hv : s.validationTimer with
    | none => exact ⟨⟨h1, h2, h3, h4, h5⟩, by simp⟩
    | some t => exact performValidation_inv _ t.snap t.op ⟨h1, h2, h3, h4, h5⟩
  | firePreview =>
    simp only [seqStep]
    cases hv : s.previewTimer with
    | none => exact ⟨⟨h1, h2, h3, h4, h5⟩, by simp⟩
    | some t =>
      have hok : SnapOk t.snap := by rw [hv] at h1; exact h1
      exact runPdfGenerationStart_inv _ t.snap t.op .preview t.projPath
        ⟨trivial, h2, h3, h4, h5⟩ hok
  | fireSave =>
    simp only [seqStep]
    cases hv : s.saveTimer with
    | none => exact ⟨⟨h1, h2, h3, h4, h5⟩, by simp⟩
    | some t =>
      have hok : SnapOk t.snap := by rw [hv] at h2; exact h2
      constructor
      · rw [runAutoSave_fst]
        exact ⟨h1, trivial, h3, h4, h5⟩
      · exact runAutoSave_effects _ t.snap t.op t.projPath hok
  | settleCompile entry res =>
    exact runPdfGenerationSettle_inv s entry res ⟨h1, h2, h3, h4, h5⟩
  | manualSave snap =>
    simp only [seqStep]
    cases hm : (computeShareMetrics snap).error with
    | some msg => exact ⟨⟨h1, h2, h3, h4, h5⟩, by simp⟩
    | none =>
      have hok : SnapOk snap := hm
      simp only [hm]
      constructor
      · rw [runAutoSave_fst]
        refine ⟨h1, trivial, ?_, h4, h5⟩
        intro f hf
        simp at hf
        subst hf
        exact hok
      · exact runAutoSave_effects _ snap _ _ hok
  | manualGenerate snap =>
    simp only [seqStep]
    cases hm : (computeShareMetrics snap).error with
    | some msg => exact ⟨⟨h1, h2, h3, h4, h5⟩, by simp⟩
    | none =>
      have hok : SnapOk snap := hm
      simp only [hm]
      have hvs : ∀ f : FormAgreementValues,
          (some snap = some f) → SnapOk f := by
        intro f hf
        simp at hf
        subst hf
        exact hok
      have hr := runPdfGenerationStart_inv
        { s with
            latestValues := snap
            shareTotal := (computeShareMetrics snap).total
            shareError := none
            opId := s.opId + 1
            lastValidOpId := some (s.opId + 1)
            validatedSnapshot := some snap
            previewTimer := none }
        snap (s.opId + 1) .preview s.currentProjectPath
        ⟨trivial, h2, hvs, h4, h5⟩ hok
      obtain ⟨⟨g1, g2, g3, g4, g5⟩, heff⟩ := hr
      exact ⟨⟨g1, hok, g3, g4, g5⟩, heff⟩
  | finalGenerate snap =>
    simp only [seqStep]
    cases hm : (computeShareMetrics snap).error with
    | some msg => exact ⟨⟨h1, h2, h3, h4, h5⟩, by simp⟩
    | none =>
      have hok : SnapOk snap := hm
      simp only [hm]
      have hvs : ∀ f : FormAgreementValues,
          (some snap = some f) → SnapOk f := by
        intro f hf
        simp at hf
        subst hf
        exact hok
      rw [runAutoSave_fst]
      have hr := runPdfGenerationStart_inv
        { s with
            latestValues := snap
            shareTotal := (computeShareMetrics snap).total
            shareError := none
            opId := s.opId + 1
            lastValidOpId := some (s.opId + 1)
            validatedSnapshot := some snap
            saveTimer := none }
        snap (s.opId + 1) .final s.currentProjectPath
        ⟨h1, trivial, hvs, h4, h5⟩ hok
      obtain ⟨hg, heff⟩ := hr
      refine ⟨hg, ?_⟩
      intro e he
      rw [List.mem_append] at he
      rcases he with he | he
      · exact runAutoSave_effects _ snap _ _ hok e he
      · exact heff e he
  | retryPreview =>
    simp only [seqStep]
    cases hvv : s.validatedSnapshot with
    | some v =>
      have hokv : SnapOk v := h3 v hvv
      have hv3 : ∀ f : FormAgreementValues, some v = some f → SnapOk f :=
        fun f hf => (Option.some.inj hf) ▸ hokv
      rw [oOr_some]
      cases hop : oOr s.lastValidOpId s.lastSuccessfulOpId with
      | none => exact ⟨⟨h1, h2, h3, h4, h5⟩, by simp⟩
      | some op =>
        exact runPdfGenerationStart_inv _ v op .preview s.currentProjectPath
          ⟨trivial, h2, hv3, h4, h5⟩ hokv
    | none =>
      have hv3 : ∀ f : FormAgreementValues,
          (none : Option FormAgreementValues) = some f → SnapOk f :=
        fun f hf => Option.noConfusion hf
      rw [oOr_none]
      cases hls : s.lastSuccessfulSnapshot with
      | none => exact ⟨⟨h1, h2, h3, h4, h5⟩, by simp⟩
      | some v =>
        have hokv : SnapOk v := h4 v hls
        have hv4 : ∀ f : FormAgreementValues, some v = some f → SnapOk f :=
          fun f hf => (Option.some.inj hf) ▸ hokv
        cases hop : oOr s.lastValidOpId s.lastSuccessfulOpId with
        | none => exact ⟨⟨h1, h2, h3, h4, h5⟩, by simp⟩
        | some op =>
          exact runPdfGenerationStart_inv _ v op .preview s.currentProjectPath
            ⟨trivial, h2, hv3, hv4, h5⟩ hokv
  | switchProject p =>
    refine ⟨⟨trivial, trivial, ?_, h4, h5⟩, by simp [seqStep]⟩
    intro f hf
    simp [seqStep] at hf
  | hydrate snap =>
    simp only [seqStep]
    have hr := performValidation_inv
      { s with opId := s.opId + 1, latestValues := snap } snap (s.opId + 1)
      ⟨h1, h2, h3, h4, h5⟩
    obtain ⟨⟨g1, g2, g3, g4, g5⟩, heff⟩ := hr
    exact ⟨⟨g1, g2, g3, g4, g5⟩, heff⟩

theorem seqRun_inv : ∀ (events : List SeqEvent) (s : SeqState), SeqInv s →
    SeqInv (seqRun s events).1 ∧ ∀ e ∈ (seqRun s events).2, EffectValidated e := by
  intro events
  induction events with
  | nil => exact fun s hs => ⟨hs, by simp [seqRun]⟩
  | cons ev rest ih =>
    intro s hs
    obtain ⟨h1, h2⟩ := seqStep_inv s ev hs
    obtain ⟨g1, g2⟩ := ih (seqStep s ev).1 h1
    refine ⟨g1, ?_⟩
    intro e he
    simp only [seqRun, List.mem_append] at he
    rcases he with he | he
    · exact h2 e he
    · exact g2 e he

theorem initSeqState_inv (p : String) : SeqInv (initSeqState p) := by
  refine ⟨trivial, trivial, ?_, ?_, ?_⟩ <;> intro f hf <;> simp [initSeqState] at hf

/-! ### Claim C1 -/

/-- Claim C1: stale-result suppression.  A compile completion whose
stamped operation id is older than the current one changes neither the
displayed preview path, the preview status and error, the staleness
flag, nor the last-successful id and snapshot, and emits no effect; and
every scheduled compile or autosave re-checks at execution time that its
tagged id equals both the current and the last-validated id and that the
active project path is unchanged, performing no side effect
otherwise. -/
theorem stale_result_suppression :
    (∀ (s : SeqState) (entry : InflightCompile) (res : GenResult), entry.op < s.opId →
      ((runPdfGenerationSettle s entry res).1.displayedPdf = s.displayedPdf ∧
       (runPdfGenerationSettle s entry res).1.previewStatus = s.previewStatus ∧
       (runPdfGenerationSettle s entry res).1.previewError = s.previewError ∧
       (runPdfGenerationSettle s entry res).1.isPreviewStale = s.isPreviewStale ∧
       (runPdfGenerationSettle s entry res).1.lastSuccessfulOpId = s.lastSuccessfulOpId ∧
       (runPdfGenerationSettle s entry res).1.lastSuccessfulSnapshot =
         s.lastSuccessfulSnapshot ∧
       (runPdfGenerationSettle s entry res).2 = [])) ∧
    (∀ (s : SeqState) (snap : FormAgreementValues) (op : Nat) (projPath : String),
      ¬(op = s.opId ∧ s.lastValidOpId = some op ∧ s.currentProjectPath = projPath) →
      runAutoSave s snap op projPath = (s, [])) ∧
    (∀ (s : SeqState) (snap : FormAgreementValues) (op : Nat) (mode : PdfMode)
        (projPath : String),
      ¬(op = s.opId ∧ s.lastValidOpId = some op ∧ s.currentProjectPath = projPath) →
      runPdfGenerationStart s snap op mode projPath = (s, [])) := by
  refine ⟨?_, ?_, ?_⟩
  · intro s entry res h
    simp only [runPdfGenerationSettle]
    split
    · split
      · exact ⟨rfl, rfl, rfl, rfl, rfl, rfl, rfl⟩
      · next heq =>
        push_neg at heq
        exact absurd heq (Nat.ne_of_lt h)
    · exact ⟨rfl, rfl, rfl, rfl, rfl, rfl, rfl⟩
  · intro s snap op projPath h
    unfold runAutoSave
    split
    · rfl
    · next hcond =>
      push_neg at hcond
      split
      · rfl
      · next hpath =>
        push_neg at hpath
        exact absurd ⟨hcond.1, hcond.2, hpath⟩ h
  · intro s snap op mode projPath h
    unfold runPdfGenerationStart
    split
    · rfl
    · next hcond =>
      push_neg at hcond
      split
      · rfl
      · next hpath =>
        push_neg at hpath
        exact absurd ⟨hcond.1, hcond.2, hpath⟩ h

theorem stale_result_suppression_witness :
    (runPdfGenerationSettle staleState staleEntry (.ok "new.pdf")).2 = [] ∧
    (runPdfGenerationSettle staleState staleEntry (.ok "new.pdf")).1.displayedPdf = none ∧
    runAutoSave staleState FALLBACK_FORM_VALUES 1 "proj" = (staleState, []) ∧
    runPdfGenerationStart staleState FALLBACK_FORM_VALUES 1 .preview "proj" =
      (staleState, []) := by
  obtain ⟨p1, p2, p3⟩ := stale_result_suppression
  have h := p1 staleState staleEntry (.ok "new.pdf") (by decide)
  refine ⟨h.2.2.2.2.2.2, ?_, p2 _ _ _ _ ?_, p3 _ _ _ _ _ ?_⟩
  · rw [h.1]
    rfl
  · intro hc
    have : (1 : Nat) = 2 := hc.1
    omega
  · intro hc
    have : (1 : Nat) = 2 := hc.1
    omega

/-! ### Claim C4 -/

/-- Claim C4: a validation pass for the current operation id that
reports a share error clears the last-validated id and the validated
snapshot and cancels the pending preview and save timers, emitting
nothing; consequently, starting from a fresh sequencer, every save or
compile effect ever emitted by any event sequence carries a snapshot
that passed validation — the effects of an operation that failed
validation never fire. -/
theorem invalid_operation_effects_never_fire :
    (∀ (s : SeqState) (snap : FormAgreementValues) (op : Nat), op = s.opId →
      (computeShareMetrics snap).error ≠ none →
      ((performValidation s snap op).1.lastValidOpId = none ∧
       (performValidation s snap op).1.validatedSnapshot = none ∧
       (performValidation s snap op).1.previewTimer = none ∧
       (performValidation s snap op).1.saveTimer = none ∧
       (performValidation s snap op).2 = [])) ∧
    (∀ (projPath : String) (events : List SeqEvent),
      ∀ e ∈ (seqRun (initSeqState projPath) events).2, EffectValidated e) := by
  constructor
  · intro s snap op hop herr
    simp only [performValidation]
    rw [if_neg (by simp [hop])]
    cases hm : (computeShareMetrics snap).error with
    | none => exact absurd hm herr
    | some msg =>
      simp [hm]
  · intro projPath events
    exact (seqRun_inv events (initSeqState projPath) (initSeqState_inv projPath)).2

theorem invalid_operation_effects_never_fire_witness :
    (performValidation (initSeqState "proj") formLabel60Share30 0).1.lastValidOpId = none ∧
    (performValidation (initSeqState "proj") formLabel60Share30 0).2 = [] ∧
    EffectValidated (.saveData formLabel60Share40 1 "proj") := by
  obtain ⟨p1, p2⟩ := invalid_operation_effects_never_fire
  have h := p1 (initSeqState "proj") formLabel60Share30 0 rfl
    (by rw [metrics_label60_30]; simp)
  refine ⟨h.1, h.2.2.2.2, ?_⟩
  apply p2 "proj" [.manualSave formLabel60Share40]
  simp only [seqRun, seqStep, metrics_label60_40, runAutoSave, initSeqState]
  simp

end ContractApp
